import Mathlib

/-!
Verification of the recommendation engine of the `US_assignment_solution`
repository against its natural-language specification.

The engine (app/services/collaborative_filtering.py, content_based_filtering.py,
hybrid_recommendation.py, recommendation_service.py, gemini_service.py and the
models in app/models/) is shallowly embedded below.  Conventions used
throughout the embedding:

* SQLAlchemy rows are Lean structures; the database session is a `DB` record of
  three tables (lists in table order).
* Python floats are modelled as exact rationals (`ℚ`).  The one operation that
  is genuinely irrational — the square-root based cosine similarity inside
  `CollaborativeFilteringService.find_similar_users`, lines 94-109 — is
  abstracted as a parameter `cos : Nat → Nat → ℚ` (target user id, other user
  id ↦ similarity value).  Every theorem below is independent of the value of
  that parameter: no claim concerns the numeric value of the cosine blend.
* Python dicts (`defaultdict`, `Counter`) are association lists in insertion
  order; updating an existing key rewrites its value in place, a fresh key is
  appended at the end, exactly the Python iteration-order semantics.
* Python's stable `list.sort(key=..., reverse=True)`, `Counter.most_common`
  and the SQL `ORDER BY ... DESC` are modelled with a stable
  descending-by-key insertion sort `sortByKeyDesc` (stable sorts under the
  same comparison agree pointwise, and a structurally recursive sort keeps
  every definition kernel-computable).  For SQL ordering, ties are returned
  in underlying scan (table) order, which the stable sort over the table list
  reproduces.
* The external text-generation collaborator (`GeminiService`) is abstracted as
  a function returning `Option String`; `none` models both its explicit
  `return None` failure signal (rate limit / error, gemini_service.py lines
  113-122) and a raised exception, since `RecommendationService` maps both to
  the same deterministic fallback.
-/

set_option allowUnsafeReducibility true
attribute [semireducible] Rat.add Rat.mul Rat.inv Rat.sub Rat.ofScientific

/-! ## Data model (app/models/) -/

/-- Product row (app/models/product.py).  `tags` is stored in the source as a
comma separated string with a `tag_list` accessor; it is modelled directly as
the list of tags.  Fields never consulted by the engine (images, timestamps,
review_count, stock) are omitted. -/
structure Product where
  id : Nat
  name : String
  category : String
  subcategory : Option String
  brand : Option String
  price : ℚ
  average_rating : ℚ
  tags : List String
  is_available : Bool
deriving Repr, DecidableEq

/-- UserInteraction row (app/models/interaction.py).  Only the columns the
engine reads are kept: user, product, type and the optional 1-5 star rating. -/
structure Interaction where
  user_id : Nat
  product_id : Nat
  interaction_type : String
  rating : Option Nat
deriving Repr, DecidableEq

/-- User row (app/models/user.py); only the fields the engine reads. -/
structure User where
  id : Nat
  username : String
  preferred_categories : List String
  preferred_brands : List String
deriving Repr, DecidableEq

/-- The database visible to the engine. -/
structure DB where
  users : List User
  products : List Product
  interactions : List Interaction
deriving Repr

/-- `User.query.get(user_id)`. -/
def findUser (db : DB) (uid : Nat) : Option User :=
  db.users.find? (fun u => u.id == uid)

/-- `Product.query.get(product_id)`. -/
def findProduct (db : DB) (pid : Nat) : Option Product :=
  db.products.find? (fun p => p.id == pid)

/-- `UserInteraction.query.filter_by(user_id=...)` in table order. -/
def userInteractions (db : DB) (uid : Nat) : List Interaction :=
  db.interactions.filter (fun i => i.user_id == uid)

/-- `UserInteraction.get_interaction_weight` (interaction.py lines 72-90):
fixed signed weight per type, default 1 for unknown types. -/
def getInteractionWeight (t : String) : Int :=
  if t == "purchase" then 10
  else if t == "rating" then 8
  else if t == "review" then 8
  else if t == "cart_add" then 6
  else if t == "wishlist_add" then 5
  else if t == "click" then 3
  else if t == "view" then 2
  else if t == "search" then 1
  else if t == "cart_remove" then -2
  else if t == "wishlist_remove" then -1
  else 1

/-! ## Collaborative scorer (app/services/collaborative_filtering.py) -/

/-- One step of the `defaultdict(float)` accumulation: update the key in place
when present, append it otherwise (Python dict insertion-order semantics). -/
def addScore : List (Nat × ℚ) → Nat → ℚ → List (Nat × ℚ)
  | [], pid, d => [(pid, d)]
  | e :: rest, pid, d =>
    if e.1 == pid then (e.1, e.2 + d) :: rest else e :: addScore rest pid d

/-- Contribution of one interaction row to the interaction matrix
(lines 40-46): the type weight, plus the rating when it is truthy. -/
def interactionDelta (i : Interaction) : ℚ :=
  (getInteractionWeight i.interaction_type : ℚ) +
    (match i.rating with
     | some r => if r == 0 then 0 else (r : ℚ)
     | none => 0)

/-- `CollaborativeFilteringService.get_user_interaction_matrix`
(lines 27-48): product id ↦ accumulated weighted score. -/
def getUserInteractionMatrix (db : DB) (uid : Nat) : List (Nat × ℚ) :=
  (userInteractions db uid).foldl (fun m i => addScore m i.product_id (interactionDelta i)) []

/-- `set(target_interactions.keys())` (line 63): the target product set is the
key set of the interaction matrix. -/
def targetProductSet (db : DB) (uid : Nat) : List Nat :=
  (getUserInteractionMatrix db uid).map Prod.fst

/-- Number of interaction rows of user `u` on the target product set of `uid`:
this is what `func.count(UserInteraction.product_id)` counts per group in the
candidate-neighbor query (lines 69-81) — raw rows, not distinct products. -/
def commonRowCount (db : DB) (uid u : Nat) : Nat :=
  (db.interactions.filter
    (fun i => i.user_id == u && decide (i.product_id ∈ targetProductSet db uid))).length

/-- Default `min_common_interactions` (constructor, line 18). -/
def minCommonInteractions : Nat := 2

/-- The candidate-neighbor query of `find_similar_users` (lines 69-81):
group interaction rows on the target's products by user (excluding the target),
keep groups with at least `min_common_interactions` rows. -/
def candidateNeighbors (db : DB) (uid : Nat) : List (Nat × Nat) :=
  let rows := db.interactions.filter
    (fun i => decide (i.product_id ∈ targetProductSet db uid) && i.user_id != uid)
  let userIds := (rows.map (fun i => i.user_id)).dedup
  (userIds.map (fun u => (u, commonRowCount db uid u))).filter
    (fun e => decide (minCommonInteractions ≤ e.2))

/-- Jaccard similarity of the two users' product sets (lines 89-92). -/
def jaccardSim (db : DB) (uid u : Nat) : ℚ :=
  let tp := targetProductSet db uid
  let op := targetProductSet db u
  let inter := (tp.filter (fun x => decide (x ∈ op))).length
  let union := (tp ++ op.filter (fun x => !decide (x ∈ tp))).length
  if union > 0 then (inter : ℚ) / (union : ℚ) else 0

/-- Combined similarity (line 109): `0.4 * jaccard + 0.6 * cosine`, with the
floating-point cosine value abstracted as the argument `c`. -/
def combinedSimilarity (db : DB) (uid u : Nat) (c : ℚ) : ℚ :=
  (2/5 : ℚ) * jaccardSim db uid u + (3/5 : ℚ) * c

/-- Insert `x` into a descending-sorted list, after every earlier element of
equal key (stability). -/
def insertDesc {α : Type} (key : α → ℚ) (x : α) : List α → List α
  | [] => [x]
  | y :: ys => if key y ≤ key x then x :: y :: ys else y :: insertDesc key x ys

/-- Stable sort by key, descending: models Python's stable
`list.sort(key=..., reverse=True)` and SQL `ORDER BY ... DESC` (ties in
original order). -/
def sortByKeyDesc {α : Type} (key : α → ℚ) : List α → List α
  | [] => []
  | x :: xs => insertDesc key x (sortByKeyDesc key xs)

/-- Stable sort of `(_, score)` pairs by score descending: models Python's
`list.sort(key=lambda x: x[1], reverse=True)` (line 114). -/
def sortByScoreDesc {α : Type} (l : List (α × ℚ)) : List (α × ℚ) :=
  sortByKeyDesc (fun a => a.2) l

/-- `CollaborativeFilteringService.find_similar_users` (lines 50-115).
`cos uid u` abstracts the cosine similarity between the two users' vectors. -/
def findSimilarUsers (db : DB) (uid : Nat) (limit : Nat) (cos : Nat → Nat → ℚ) :
    List (Nat × ℚ) :=
  if (getUserInteractionMatrix db uid).isEmpty then []
  else
    let sims := (candidateNeighbors db uid).map
      (fun e => (e.1, combinedSimilarity db uid e.1 (cos uid e.1)))
    (sortByScoreDesc sims).take limit

/-! ## Recommendation reason records

The source attaches an open Python dict as the "reason"; it is modelled as one
record whose `rtype` field is the dict's `'type'` tag.  Purely diagnostic
numeric fields that no downstream code path reads (the rounded `'score'`,
`'avg_recommender_similarity'`, `'combined_score'`, per-method `'details'`,
`'similarity_score'`, `'same_category'`/`'price_similarity'` of
`similar_product` reasons) are omitted; fields that downstream code consults
(`recommenders_count`, `matched_category`, `matched_brand` in the fallback
explanation, `interaction_count`/`avg_rating` of the popularity fallback,
`methods_used`) are kept. -/
structure Reason where
  rtype : String
  similar_users_count : Nat := 0
  recommenders_count : Nat := 0
  matched_category : Bool := false
  matched_brand : Bool := false
  in_price_range : Bool := false
  interaction_count : Nat := 0
  avg_rating : ℚ := 0
  methods_used : List String := []
deriving Repr, DecidableEq

/-- A `(product, score, reason)` triple, the unit every scorer returns. -/
abbrev Rec3 : Type := Product × ℚ × Reason

/-- Interaction rows of one product, any user (`JOIN` partner rows). -/
def productInteractions (db : DB) (pid : Nat) : List Interaction :=
  db.interactions.filter (fun i => i.product_id == pid)

/-- `func.count(UserInteraction.id)` per product in `_get_popular_products`. -/
def interactionCount (db : DB) (pid : Nat) : Nat :=
  (productInteractions db pid).length

/-- `func.avg(UserInteraction.rating)` per product: SQL `AVG` ignores NULLs and
is NULL when every rating is NULL. -/
def avgInteractionRating (db : DB) (pid : Nat) : Option ℚ :=
  let rs := (productInteractions db pid).filterMap (fun i => i.rating)
  match rs with
  | [] => none
  | r :: rest => some (((r :: rest).map (fun x => (x : ℚ))).sum / ((r :: rest).length : ℚ))

/-- `CollaborativeFilteringService._get_popular_products` (lines 180-214):
available products having at least one interaction (INNER JOIN), ordered by
interaction count descending (ties in scan order — the query names no second
sort key), truncated to `limit`; score `count + 2 * avg_rating` with a NULL
average treated as 0. -/
def popularProducts (db : DB) (limit : Nat) : List Rec3 :=
  let joined := (db.products.filter
      (fun p => p.is_available && decide (0 < interactionCount db p.id))).map
    (fun p => (p, interactionCount db p.id, avgInteractionRating db p.id))
  let sorted := sortByKeyDesc (fun e => e.2.1) joined
  (sorted.take limit).map (fun e =>
    let avg : ℚ := (e.2.2).getD 0
    (e.1, (e.2.1 : ℚ) + avg * 2,
      { rtype := "popular_fallback", interaction_count := e.2.1, avg_rating := avg }))

/-- The products of the target user to exclude (lines 137-140). -/
def targetUserProducts (db : DB) (uid : Nat) (excludeInteracted : Bool) : List Nat :=
  if excludeInteracted then (userInteractions db uid).map (fun i => i.product_id) else []

/-- State of the twin `defaultdict` aggregation of `recommend_products`
(lines 143-154): product id ↦ (accumulated score, recommender list).  The two
dicts are touched under the same condition with the same keys, so they share
one association list. -/
def addAggregate : List (Nat × ℚ × List (Nat × ℚ)) → Nat → ℚ → (Nat × ℚ) →
    List (Nat × ℚ × List (Nat × ℚ))
  | [], pid, d, rec => [(pid, d, [rec])]
  | e :: rest, pid, d, rec =>
    if e.1 == pid then (e.1, e.2.1 + d, e.2.2 ++ [rec]) :: rest
    else e :: addAggregate rest pid d rec

/-- Aggregation loop of `recommend_products` (lines 146-154): for every kept
neighbor, every product of its interaction matrix not already interacted with
by the target contributes `interaction_score * similarity`. -/
def collabAggregate (db : DB) (similar : List (Nat × ℚ)) (excluded : List Nat) :
    List (Nat × ℚ × List (Nat × ℚ)) :=
  similar.foldl
    (fun m su =>
      (getUserInteractionMatrix db su.1).foldl
        (fun m e =>
          if decide (e.1 ∈ excluded) then m
          else addAggregate m e.1 (e.2 * su.2) (su.1, su.2))
        m)
    []

/-- Lines 156-178 of `recommend_products`: rank aggregated candidates by score
descending, truncate to the top `limit`, then keep only those whose product
exists and is available. -/
def recommendFromSimilar (db : DB) (uid : Nat) (similar : List (Nat × ℚ))
    (limit : Nat) (excludeInteracted : Bool) : List Rec3 :=
  let agg := collabAggregate db similar (targetUserProducts db uid excludeInteracted)
  let sorted := sortByKeyDesc (fun e => e.2.1) agg
  (sorted.take limit).filterMap (fun e =>
    match findProduct db e.1 with
    | some p =>
      if p.is_available then
        some (p, e.2.1,
          { rtype := "collaborative",
            similar_users_count := similar.length,
            recommenders_count := e.2.2.length })
      else none
    | none => none)

/-- `CollaborativeFilteringService.recommend_products` (lines 117-178): find
similar users (candidate pool 10); with none, fall back to popular products. -/
def collabRecommendProducts (db : DB) (uid : Nat) (limit : Nat)
    (excludeInteracted : Bool) (cos : Nat → Nat → ℚ) : List Rec3 :=
  let similar := findSimilarUsers db uid 10 cos
  if similar.isEmpty then popularProducts db limit
  else recommendFromSimilar db uid similar limit excludeInteracted

/-! ## Content scorer (app/services/content_based_filtering.py) -/

/-- One step of a `Counter` aggregate: add `w` to the key in place, appending a
fresh key at the end (Python dict insertion order). -/
def addCount : List (String × ℚ) → String → ℚ → List (String × ℚ)
  | [], k, w => [(k, w)]
  | e :: rest, k, w =>
    if e.1 == k then (e.1, e.2 + w) :: rest else e :: addCount rest k w

/-- `Counter.most_common(n)`: entries sorted by count descending, equal counts
in first-encountered order (stable), truncated to `n`. -/
def mostCommon (n : Nat) (m : List (String × ℚ)) : List (String × ℚ) :=
  (sortByKeyDesc (fun e => e.2) m).take n

/-- Mutable state of the preference-aggregation loop
(content_based_filtering.py lines 43-65). -/
structure PrefState where
  categories : List (String × ℚ) := []
  subcategories : List (String × ℚ) := []
  brands : List (String × ℚ) := []
  price_points : List ℚ := []
  tags : List (String × ℚ) := []
deriving Repr, DecidableEq

/-- Loop body of `extract_user_preferences` (lines 50-65): interactions whose
type weight is not strictly positive contribute nothing. -/
def prefStep (s : PrefState) (p : Product) (i : Interaction) : PrefState :=
  let w : ℚ := (getInteractionWeight i.interaction_type : ℚ)
  if 0 < w then
    { categories := addCount s.categories p.category w
      subcategories :=
        match p.subcategory with
        | some sc => addCount s.subcategories sc w
        | none => s.subcategories
      brands :=
        match p.brand with
        | some b => addCount s.brands b w
        | none => s.brands
      price_points := s.price_points ++ [p.price]
      tags :=
        if p.tags.isEmpty then s.tags
        else p.tags.foldl (fun ts t => addCount ts t.toLower w) s.tags }
  else s

/-- The joined `(Product, UserInteraction)` rows of one user (lines 35-41);
an INNER JOIN drops interactions whose product id has no product row. -/
def userProductPairs (db : DB) (uid : Nat) : List (Product × Interaction) :=
  (userInteractions db uid).filterMap
    (fun i => (findProduct db i.product_id).map (fun p => (p, i)))

/-- Recursive form of the aggregation fold, for ease of induction. -/
def prefFold : List (Product × Interaction) → PrefState → PrefState
  | [], s => s
  | (p, i) :: rest, s => prefFold rest (prefStep s p i)

/-- `UserPreferenceProfile` as returned by `extract_user_preferences`
(lines 72-88).  `price_max = none` models Python's `float('inf')` when the
profile has no price history. -/
structure Preferences where
  preferred_categories : List (String × ℚ)
  preferred_subcategories : List (String × ℚ)
  preferred_brands : List (String × ℚ)
  preferred_tags : List (String × ℚ)
  price_min : ℚ
  price_max : Option ℚ
  price_avg : ℚ
  explicit_categories : List String
  explicit_brands : List String
deriving Repr, DecidableEq

/-- `min` of a nonempty rational list (Python `min(...)`). -/
def listMin : List ℚ → ℚ
  | [] => 0
  | x :: xs => xs.foldl min x

/-- `max` of a nonempty rational list (Python `max(...)`). -/
def listMax : List ℚ → ℚ
  | [] => 0
  | x :: xs => xs.foldl max x

/-- `ContentBasedFilteringService.extract_user_preferences` (lines 22-88). -/
def extractUserPreferences (db : DB) (uid : Nat) : Preferences :=
  let s := prefFold (userProductPairs db uid) {}
  let user := findUser db uid
  { preferred_categories := mostCommon 5 s.categories
    preferred_subcategories := mostCommon 5 s.subcategories
    preferred_brands := mostCommon 5 s.brands
    preferred_tags := mostCommon 10 s.tags
    price_min := if s.price_points.isEmpty then 0 else listMin s.price_points
    price_max := if s.price_points.isEmpty then none else some (listMax s.price_points)
    price_avg :=
      if s.price_points.isEmpty then 0
      else s.price_points.sum / (s.price_points.length : ℚ)
    explicit_categories := match user with | some u => u.preferred_categories | none => []
    explicit_brands := match user with | some u => u.preferred_brands | none => [] }

/-- Key lookup in a counter, 0 when absent (`preferences[...][key]` is only
evaluated under a membership test in the source). -/
def counterVal (m : List (String × ℚ)) (k : String) : ℚ :=
  match m.find? (fun e => e.1 == k) with
  | some e => e.2
  | none => 0

/-- Membership of a key in a counter (`key in dict`). -/
def counterHas (m : List (String × ℚ)) (k : String) : Bool :=
  m.any (fun e => e.1 == k)

/-- `ContentBasedFilteringService.calculate_product_similarity`
(lines 90-156), translated branch by branch; every `max_score` increment is
unconditional, so `max_score = 100`. -/
def calculateProductSimilarity (p : Product) (prefs : Preferences) : ℚ :=
  let catScore : ℚ :=
    if counterHas prefs.preferred_categories p.category then
      min (counterVal prefs.preferred_categories p.category * 3) 30
    else if decide (p.category ∈ prefs.explicit_categories) then 20
    else 0
  let subScore : ℚ :=
    match p.subcategory with
    | some sc =>
      if counterHas prefs.preferred_subcategories sc then
        min (counterVal prefs.preferred_subcategories sc * (3/2)) 15
      else 0
    | none => 0
  let brandScore : ℚ :=
    match p.brand with
    | some b =>
      if counterHas prefs.preferred_brands b then
        min (counterVal prefs.preferred_brands b * 2) 20
      else if decide (b ∈ prefs.explicit_brands) then 15
      else 0
    | none => 0
  let priceScore : ℚ :=
    if decide (prefs.price_min ≤ p.price) &&
        (match prefs.price_max with
         | none => true
         | some mx => decide (p.price ≤ mx)) then
      match prefs.price_max with
      | none =>
        -- price_range_size is float('inf'); price_diff / inf = 0, score 15
        15
      | some mx =>
        let size := mx - prefs.price_min
        if 0 < size then
          15 * (1 - min ((if prefs.price_avg ≤ p.price then p.price - prefs.price_avg
                          else prefs.price_avg - p.price) / size) 1)
        else 15
    else 0
  let tagScore : ℚ :=
    if p.tags.isEmpty then 0
    else
      let overlap := ((p.tags.map (fun t => t.toLower)).dedup.filter
        (fun t => counterHas prefs.preferred_tags t)).length
      if 0 < overlap then min ((overlap : ℚ) * 3) 10 else 0
  let ratingScore : ℚ := if 0 < p.average_rating then p.average_rating / 5 * 10 else 0
  let score := catScore + subScore + brandScore + priceScore + tagScore + ratingScore
  let maxScore : ℚ := 30 + 15 + 20 + 15 + 10 + 10
  min (score / maxScore * 100) 100

/-- `ContentBasedFilteringService.recommend_products` (lines 158-223). -/
def contentRecommendProducts (db : DB) (uid : Nat) (limit : Nat)
    (excludeInteracted : Bool) : List Rec3 :=
  let prefs := extractUserPreferences db uid
  let cands0 := db.products.filter (fun p => p.is_available)
  let interacted := ((userInteractions db uid).map (fun i => i.product_id)).dedup
  let cands1 :=
    if excludeInteracted && !interacted.isEmpty then
      cands0.filter (fun p => !decide (p.id ∈ interacted))
    else cands0
  let prefCats := prefs.preferred_categories.map Prod.fst
  let cands2 :=
    if !prefCats.isEmpty then
      let allCats := (prefCats ++ prefs.explicit_categories).dedup
      cands1.filter (fun p => decide (p.category ∈ allCats))
    else cands1
  let priceMin := prefs.price_min * (1/2)
  let cands3 : List Product :=
    match prefs.price_max with
    | none =>
      -- price_max * 1.5 is float('inf'), which is > 0; upper bound always holds
      cands2.filter (fun p => decide (priceMin ≤ p.price))
    | some mx =>
      let priceMax := mx * (3/2)
      if 0 < priceMax then
        cands2.filter (fun p => decide (priceMin ≤ p.price) && decide (p.price ≤ priceMax))
      else cands2
  let scored := cands3.map (fun p =>
    (p, calculateProductSimilarity p prefs,
      ({ rtype := "content_based",
         matched_category := counterHas prefs.preferred_categories p.category,
         matched_brand :=
           match p.brand with
           | some b => counterHas prefs.preferred_brands b
           | none => false,
         in_price_range :=
           decide (prefs.price_min ≤ p.price) &&
             (match prefs.price_max with
              | none => true
              | some mx2 => decide (p.price ≤ mx2)) } : Reason)))
  (sortByKeyDesc (fun e => e.2.1) scored).take limit

/-- `ContentBasedFilteringService.find_similar_products` (lines 255-317). -/
def findSimilarProducts (db : DB) (pid : Nat) (limit : Nat) : List Rec3 :=
  match findProduct db pid with
  | none => []
  | some src =>
    let pool := db.products.filter (fun p =>
      p.id != pid && p.is_available &&
        (p.category == src.category || p.brand == src.brand))
    let scored := pool.map (fun p =>
      let catScore : ℚ := if p.category == src.category then 40 else 0
      let subScore : ℚ := if p.subcategory == src.subcategory then 20 else 0
      let brandScore : ℚ :=
        match p.brand with
        | some b => if some b == src.brand then 25 else 0
        | none => 0
      let priceScore : ℚ :=
        if 0 < src.price then
          let diff := (if src.price ≤ p.price then p.price - src.price
                       else src.price - p.price) / src.price
          if diff < 3/10 then 15 * (1 - diff / (3/10)) else 0
        else 0
      (p, catScore + subScore + brandScore + priceScore,
        ({ rtype := "similar_product" } : Reason)))
    (sortByKeyDesc (fun e => e.2.1) scored).take limit

/-! ## Hybrid combiner (app/services/hybrid_recommendation.py) -/

/-- Default weights (constructor lines 16-27):
collaborative 0.6, content 0.4. -/
def collaborativeWeight : ℚ := 3/5

/-- Default content weight 0.4. -/
def contentWeight : ℚ := 2/5

/-- The min-max normalization value of one raw score against a score list
(`_normalize_scores` lines 142-152, per element). -/
def minmaxNorm (scores : List ℚ) (s : ℚ) : ℚ :=
  if listMax scores = listMin scores then 50
  else (s - listMin scores) / (listMax scores - listMin scores) * 100

/-- `HybridRecommendationService._normalize_scores` (lines 129-154): scale a
score list to the 0-100 range; a constant list becomes the uniform value 50. -/
def normalizeScores (recs : List Rec3) : List Rec3 :=
  match recs with
  | [] => []
  | r :: rs =>
    let scores := ((r :: rs).map (fun t => t.2.1))
    if listMax scores = listMin scores then
      (r :: rs).map (fun t => (t.1, (50 : ℚ), t.2.2))
    else
      (r :: rs).map (fun t =>
        (t.1, (t.2.1 - listMin scores) / (listMax scores - listMin scores) * 100, t.2.2))

/-- An entry of the `combined_scores` defaultdict (lines 82-100): accumulated
score, last product written, and the appended per-method reason list. -/
structure CEntry where
  product : Product
  score : ℚ
  methods : List (String × ℚ × Reason)
deriving Repr, DecidableEq

/-- One `combined_scores[product.id]` update (lines 84-100): add the weighted
normalized score and append the method record, keyed by product id. -/
def upsertCombined : List (Nat × CEntry) → String → ℚ → Rec3 → List (Nat × CEntry)
  | [], method, w, r => [(r.1.id, ⟨r.1, r.2.1 * w, [(method, r.2.1, r.2.2)]⟩)]
  | e :: rest, method, w, r =>
    if e.1 == r.1.id then
      (e.1, ⟨r.1, e.2.score + r.2.1 * w, e.2.methods ++ [(method, r.2.1, r.2.2)]⟩) :: rest
    else e :: upsertCombined rest method w r

/-- The filled `combined_scores` dict: first the collaborative pass, then the
content pass (lines 84-100), over the two already-normalized lists. -/
def combinedMap (cw tw : ℚ) (collabN contentN : List Rec3) : List (Nat × CEntry) :=
  contentN.foldl (fun m r => upsertCombined m "content_based" tw r)
    (collabN.foldl (fun m r => upsertCombined m "collaborative" cw r) [])

/-- Score of a product id in the combined dict, 0 when absent. -/
def getScore : List (Nat × CEntry) → Nat → ℚ
  | [], _ => 0
  | e :: rest, k => if e.1 == k then e.2.score else getScore rest k

/-- Lines 77-127 of `_hybrid_recommend` given the two scorers' outputs:
normalize both lists, blend them in the combined dict, rank by combined score
descending and emit the top `limit` with a `hybrid` reason. -/
def hybridCombine (cw tw : ℚ) (collabRecs contentRecs : List Rec3) (limit : Nat) :
    List Rec3 :=
  let m := combinedMap cw tw (normalizeScores collabRecs) (normalizeScores contentRecs)
  ((sortByKeyDesc (fun e => e.2.score) m).take limit).map
    (fun e => (e.2.product, e.2.score,
      ({ rtype := "hybrid", methods_used := e.2.methods.map (fun d => d.1) } : Reason)))

/-- `HybridRecommendationService._hybrid_recommend` (lines 57-127): request
`2 * limit` results from each scorer and blend with the default weights. -/
def hybridRecommend (db : DB) (cos : Nat → Nat → ℚ) (uid : Nat) (limit : Nat)
    (excludeInteracted : Bool) : List Rec3 :=
  hybridCombine collaborativeWeight contentWeight
    (collabRecommendProducts db uid (limit * 2) excludeInteracted cos)
    (contentRecommendProducts db uid (limit * 2) excludeInteracted)
    limit

/-- `HybridRecommendationService._determine_best_strategy` (lines 156-186). -/
def determineBestStrategy (db : DB) (cos : Nat → Nat → ℚ) (uid : Nat) : String :=
  let interactionCnt := (userInteractions db uid).length
  let similar := findSimilarUsers db uid 1 cos
  if interactionCnt < 3 then "content"
  else if similar.isEmpty then "content"
  else if interactionCnt < 10 then "hybrid"
  else "hybrid"

/-- `HybridRecommendationService.recommend_products` (lines 29-55): unknown
user yields `[]`; `auto` resolves a strategy; `collaborative` and `content`
dispatch to the single scorers; every other strategy value, the string
`"hybrid"` included, falls into the final `else` branch. -/
def hybridServiceRecommend (db : DB) (cos : Nat → Nat → ℚ) (uid : Nat)
    (limit : Nat) (excludeInteracted : Bool) (strategy : String) : List Rec3 :=
  match findUser db uid with
  | none => []
  | some _ =>
    let strat := if strategy == "auto" then determineBestStrategy db cos uid else strategy
    if strat == "collaborative" then
      collabRecommendProducts db uid limit excludeInteracted cos
    else if strat == "content" then
      contentRecommendProducts db uid limit excludeInteracted
    else
      hybridRecommend db cos uid limit excludeInteracted

/-! ## Diversity round-robin (hybrid_recommendation.py lines 188-235) -/

/-- One step of the category bucketing (lines 204-207): append the rec to its
category bucket, creating a fresh bucket at the end for a new category. -/
def upsertBucket : List (String × List Rec3) → String → Rec3 → List (String × List Rec3)
  | [], c, r => [(c, [r])]
  | b :: rest, c, r =>
    if b.1 == c then (b.1, b.2 ++ [r]) :: rest else b :: upsertBucket rest c r

/-- `category_recs`: recommendations grouped by product category, buckets in
first-appearance order, bucket contents in list order. -/
def groupByCategory (recs : List Rec3) : List (String × List Rec3) :=
  recs.foldl (fun m r => upsertBucket m r.1.category r) []

/-- Contents of one category bucket (`category_recs[category]`). -/
def bucketOf (bs : List (String × List Rec3)) (c : String) : List Rec3 :=
  match bs.find? (fun b => b.1 == c) with
  | some b => b.2
  | none => []

/-- `category_recs[category].pop(0)` applied to the bucket map. -/
def popBucket (bs : List (String × List Rec3)) (c : String) : List (String × List Rec3) :=
  bs.map (fun b => if b.1 == c then (b.1, b.2.tail) else b)

/-- The while loop of `get_recommendations_with_diversity` (lines 220-233),
fuel-recursive.  In order: check `len(diverse_recs) < limit and
any(category_recs.values())`; select `categories[category_index %
len(categories)]`; pop the head of that bucket when non-empty; advance the
index; when the selected bucket is now empty remove its category and stop when
no category remains.  (With the loop condition true `categories` is never
empty, so the `[]` arm that Python would reach only via a ZeroDivisionError is
modelled as stopping.) -/
def rrLoop : Nat → List String → List (String × List Rec3) → Nat → Nat → List Rec3 →
    List Rec3
  | 0, _, _, _, _, acc => acc
  | fuel + 1, cats, buckets, idx, limit, acc =>
    if acc.length < limit && buckets.any (fun b => !b.2.isEmpty) then
      match cats with
      | [] => acc
      | _ :: _ =>
        let cat := cats.getD (idx % cats.length) ""
        let b := bucketOf buckets cat
        let acc2 := match b with | [] => acc | x :: _ => acc ++ [x]
        let buckets2 := match b with | [] => buckets | _ :: _ => popBucket buckets cat
        let idx2 := idx + 1
        if (bucketOf buckets2 cat).isEmpty then
          let cats2 := cats.erase cat
          if cats2.isEmpty then acc2
          else rrLoop fuel cats2 buckets2 idx2 limit acc2
        else rrLoop fuel cats buckets2 idx2 limit acc2
    else acc

/-- Round-robin selection (lines 203-235) applied to an already-computed
recommendation list.  The source computes `items_per_category` from
`diversity_factor` (lines 213-217) but never uses it afterwards, so the
`diversity_factor` argument has no effect on the result; the fuel
`recs.length + #categories + 1` exceeds the iteration count of the loop, which
pops an element or retires a category every time through. -/
def diversitySelect (recs : List Rec3) (limit : Nat) (diversityFactor : ℚ) : List Rec3 :=
  (rrLoop (recs.length + (groupByCategory recs).length + 1)
    ((groupByCategory recs).map (fun b => b.1)) (groupByCategory recs) 0 limit []).take limit

/-- `HybridRecommendationService.get_recommendations_with_diversity`
(lines 188-235): fetch `3 * limit` hybrid recommendations, then round-robin
across category buckets. -/
def getRecommendationsWithDiversity (db : DB) (cos : Nat → Nat → ℚ) (uid : Nat)
    (limit : Nat) (diversityFactor : ℚ) : List Rec3 :=
  diversitySelect (hybridServiceRecommend db cos uid (limit * 3) true "hybrid")
    limit diversityFactor

/-! ## Explanation adapter (recommendation_service.py, gemini_service.py) -/

/-- Rendering of `f"{x:.1f}"` for the nonnegative ratings that reach the
templates: one decimal digit, modelled with round-half-up (the claims below
never depend on the rounding mode of the binary-float original). -/
def fmtRating1 (q : ℚ) : String :=
  let t : Int := ⌊q * 10 + 1/2⌋
  toString (t / 10) ++ "." ++ toString (t % 10)

/-- Python's `' '.join(parts)`. -/
def joinSpace : List String → String
  | [] => ""
  | [x] => x
  | x :: y :: rest => x ++ " " ++ joinSpace (y :: rest)

/-- `f"{product['brand']}"`: Python renders a missing brand as `None`. -/
def brandText (p : Product) : String :=
  match p.brand with
  | some b => b
  | none => "None"

/-- `RecommendationService._generate_fallback_explanation` (lines 127-172):
the deterministic template keyed by the reason type, with `'unknown'` the
default for any unrecognized type tag. -/
def generateFallbackExplanation (p : Product) (r : Reason) : String :=
  if r.rtype == "collaborative" then
    "We recommend " ++ p.name ++ " because " ++ toString r.recommenders_count ++
      " users with similar taste also liked this product. It\x27s in the " ++
      p.category ++ " category and has a " ++ fmtRating1 p.average_rating ++
      " star rating."
  else if r.rtype == "content_based" then
    let parts := ["We recommend " ++ p.name]
    let parts := if r.matched_category then
        parts ++ ["because it matches your interest in " ++ p.category]
      else parts
    let parts := if r.matched_brand then
        parts ++ ["and it\x27s from " ++ brandText p ++ ", a brand you like"]
      else parts
    joinSpace parts ++ "."
  else if r.rtype == "hybrid" then
    "We recommend " ++ p.name ++
      " based on both your personal preferences and what similar users enjoyed. It\x27s highly rated (" ++
      fmtRating1 p.average_rating ++ " stars) and fits your style perfectly."
  else
    "We think you\x27ll love " ++ p.name ++ "! It\x27s a popular choice in the " ++
      p.category ++ " category."

/-- The explanation chosen for one recommendation
(recommendation_service.py lines 80-105).  `gen` abstracts
`GeminiService.explain_recommendation`; `none` covers both the `None`
failure signal (rate limit or generation error) and a raised exception, each
of which the source replaces by the deterministic fallback. -/
def chooseExplanation (geminiAvailable : Bool) (gen : Product → Reason → Option String)
    (includeExplanations : Bool) (p : Product) (r : Reason) : String :=
  if includeExplanations && geminiAvailable then
    match gen p r with
    | some t => t
    | none => generateFallbackExplanation p r
  else generateFallbackExplanation p r

/-- One formatted entry of the caller-facing result list (lines 107-112). -/
structure FormattedRec where
  product : Product
  score : ℚ
  reason : Reason
  explanation : String
deriving Repr, DecidableEq

/-- The dictionary `get_recommendations_with_explanations` returns
(lines 46-125).  Echoed metadata that no claim consults (the user snippet,
`strategy_used`, `count`, `gemini_enabled`) is omitted. -/
structure ServiceResult where
  success : Bool
  error : Option String := none
  recommendations : List FormattedRec := []
  message : Option String := none
deriving Repr, DecidableEq

/-- `RecommendationService.get_recommendations_with_explanations`
(lines 27-125): an unknown user id is a structured failure before any scoring;
an empty recommendation list is a success carrying an advisory message;
otherwise every entry is formatted with a real or fallback explanation. -/
def getRecommendationsWithExplanations (db : DB) (cos : Nat → Nat → ℚ)
    (geminiAvailable : Bool) (gen : Product → Reason → Option String)
    (uid : Nat) (limit : Nat) (strategy : String) (includeExplanations : Bool) :
    ServiceResult :=
  match findUser db uid with
  | none => { success := false, error := some "User not found" }
  | some _ =>
    let recs := hybridServiceRecommend db cos uid limit true strategy
    match recs with
    | [] =>
      { success := true,
        message := some
          "No recommendations available at this time. Try interacting with more products!" }
    | _ :: _ =>
      { success := true,
        recommendations := recs.map (fun r =>
          { product := r.1, score := r.2.1, reason := r.2.2,
            explanation := chooseExplanation geminiAvailable gen includeExplanations
              r.1 r.2.2 }) }

/-- Result shape of `get_similar_products_with_explanations` (lines 174-248);
the per-entry explanation text is not consulted by any claim and is omitted. -/
structure SimilarResult where
  success : Bool
  error : Option String := none
  similar_products : List Rec3 := []
  message : Option String := none
deriving Repr, DecidableEq

/-- `RecommendationService.get_similar_products_with_explanations`
(lines 174-248): an unknown product id is a structured failure; an empty
similarity list is a success carrying an advisory message. -/
def getSimilarProductsWithExplanations (db : DB) (pid : Nat) (limit : Nat) :
    SimilarResult :=
  match findProduct db pid with
  | none => { success := false, error := some "Product not found" }
  | some _ =>
    let similar := findSimilarProducts db pid limit
    match similar with
    | [] => { success := true, message := some "No similar products found" }
    | _ :: _ => { success := true, similar_products := similar }

/-! ## Substring occurrence, for "the text references X" -/

/-- `pat` occurs as a contiguous run inside `s` (character lists). -/
def hasSub (pat : List Char) : List Char → Bool
  | [] => pat.isEmpty
  | c :: rest => pat.isPrefixOf (c :: rest) || hasSub pat rest

/-- A string mentions another when it occurs as a substring. -/
def mentions (s pat : String) : Bool :=
  hasSub pat.data s.data

/-! ## Concrete instances used by counterexamples and witnesses -/

/-- Database for the neighbor-qualification analysis: user 1 interacted with
product 10 once; user 2 interacted with the single common product 10 twice. -/
def dbNeighbors : DB :=
  { users := []
    products := []
    interactions :=
      [ { user_id := 1, product_id := 10, interaction_type := "view", rating := none }
      , { user_id := 2, product_id := 10, interaction_type := "view", rating := none }
      , { user_id := 2, product_id := 10, interaction_type := "click", rating := none } ] }

/-- A catalog with one available product and a user without interactions. -/
def dbOneProduct : DB :=
  { users := [{ id := 1, username := "u", preferred_categories := [],
                preferred_brands := [] }]
    products := [{ id := 7, name := "Widget", category := "Electronics",
                   subcategory := none, brand := none, price := 10,
                   average_rating := 4, tags := [], is_available := true }]
    interactions := [] }

/-- Two available products with equal interaction counts and different average
ratings: product 1 (average 1 star) precedes product 2 (average 5 stars) in
table order. -/
def dbPopular : DB :=
  { users := []
    products :=
      [ { id := 1, name := "P1", category := "C", subcategory := none, brand := none,
          price := 5, average_rating := 0, tags := [], is_available := true }
      , { id := 2, name := "P2", category := "C", subcategory := none, brand := none,
          price := 5, average_rating := 0, tags := [], is_available := true } ]
    interactions :=
      [ { user_id := 9, product_id := 1, interaction_type := "view", rating := some 1 }
      , { user_id := 9, product_id := 1, interaction_type := "view", rating := some 1 }
      , { user_id := 9, product_id := 2, interaction_type := "view", rating := some 5 }
      , { user_id := 9, product_id := 2, interaction_type := "view", rating := some 5 } ] }

/-- Database for the truncate-then-filter behavior of the collaborative
recommender: the target (user 1) shares product 100 with user 2 (two rows, so
user 2 qualifies); user 2 also scored products 101 (purchase, unavailable!),
102 (cart_add), 103 (view) and 104 (wishlist_add), the latter three available
— strictly more available positively-scored candidates than the limit 2. -/
def dbTruncate : DB :=
  { users := [{ id := 1, username := "t", preferred_categories := [],
                preferred_brands := [] }]
    products :=
      [ { id := 100, name := "Shared", category := "C", subcategory := none,
          brand := none, price := 1, average_rating := 0, tags := [], is_available := true }
      , { id := 101, name := "Gone", category := "C", subcategory := none,
          brand := none, price := 1, average_rating := 0, tags := [], is_available := false }
      , { id := 102, name := "Here", category := "C", subcategory := none,
          brand := none, price := 1, average_rating := 0, tags := [], is_available := true }
      , { id := 103, name := "Also", category := "C", subcategory := none,
          brand := none, price := 1, average_rating := 0, tags := [], is_available := true }
      , { id := 104, name := "More", category := "C", subcategory := none,
          brand := none, price := 1, average_rating := 0, tags := [], is_available := true } ]
    interactions :=
      [ { user_id := 1, product_id := 100, interaction_type := "view", rating := none }
      , { user_id := 2, product_id := 100, interaction_type := "view", rating := none }
      , { user_id := 2, product_id := 100, interaction_type := "click", rating := none }
      , { user_id := 2, product_id := 101, interaction_type := "purchase", rating := none }
      , { user_id := 2, product_id := 102, interaction_type := "cart_add", rating := none }
      , { user_id := 2, product_id := 103, interaction_type := "view", rating := none }
      , { user_id := 2, product_id := 104, interaction_type := "wishlist_add", rating := none } ] }

/-- One user with exactly two `view` interactions on an Electronics product. -/
def dbViews : DB :=
  { users := [{ id := 1, username := "v", preferred_categories := [],
                preferred_brands := [] }]
    products := [{ id := 20, name := "TV", category := "Electronics",
                   subcategory := none, brand := none, price := 100,
                   average_rating := 4, tags := [], is_available := true }]
    interactions :=
      [ { user_id := 1, product_id := 20, interaction_type := "view", rating := none }
      , { user_id := 1, product_id := 20, interaction_type := "view", rating := none } ] }

/-- A cosine oracle that is identically zero (any value works; no theorem
depends on it). -/
def cosZero : Nat → Nat → ℚ := fun _ _ => 0

/-- A cosine oracle that is identically one. -/
def cosOne : Nat → Nat → ℚ := fun _ _ => 1

/-- A recommendation entry with the given product id and category, used to
build concrete diversity inputs. -/
def mkRec (pid : Nat) (cat : String) : Rec3 :=
  ({ id := pid, name := "R", category := cat, subcategory := none, brand := none,
     price := 1, average_rating := 0, tags := [], is_available := true }, 0,
   { rtype := "hybrid" })

/-- Nine hybrid recommendations spanning category buckets A:5, B:1, C:3 in
first-appearance order A, B, C. -/
def recsDiversity : List Rec3 :=
  [ mkRec 1 "A", mkRec 2 "A", mkRec 3 "A", mkRec 4 "A", mkRec 5 "A",
    mkRec 6 "B", mkRec 7 "C", mkRec 8 "C", mkRec 9 "C" ]

/-- A product whose category string does not occur in any fixed template
text, for the fallback-explanation analysis. -/
def widget : Product :=
  { id := 3, name := "Widget", category := "Electronics", subcategory := none,
    brand := none, price := 10, average_rating := 9/2, tags := [],
    is_available := true }

/-- The database with the non-positive-weight interaction rows of one user
removed (used to state that they contribute nothing to the profile). -/
def dropNonPositive (db : DB) (uid : Nat) : DB :=
  { users := db.users
    products := db.products
    interactions := db.interactions.filter
      (fun i => !(i.user_id == uid) || decide (0 < getInteractionWeight i.interaction_type)) }

/-- Concrete collaborative candidate list for the blend-formula instance. -/
def blendCollab : List Rec3 :=
  [ (mkRec 1 "A").1 |> (fun p => (p, (10 : ℚ), ({ rtype := "x" } : Reason))),
    (mkRec 2 "A").1 |> (fun p => (p, (20 : ℚ), ({ rtype := "x" } : Reason))) ]

/-- Concrete content candidate list for the blend-formula instance. -/
def blendContent : List Rec3 :=
  [ (mkRec 1 "A").1 |> (fun p => (p, (1 : ℚ), ({ rtype := "x" } : Reason))),
    (mkRec 3 "A").1 |> (fun p => (p, (3 : ℚ), ({ rtype := "x" } : Reason))) ]

/-! # Theorems -/

/-! ## C1: neighbor qualification -/

lemma commonRowCount_pos_iff (db : DB) (uid u : Nat) :
    0 < commonRowCount db uid u ↔
      ∃ i ∈ db.interactions, i.user_id = u ∧ i.product_id ∈ targetProductSet db uid := by
  simp [commonRowCount, List.length_pos_iff_exists_mem, List.mem_filter]

lemma mem_candidateNeighbors (db : DB) (uid u : Nat) :
    u ∈ (candidateNeighbors db uid).map Prod.fst ↔
      u ≠ uid ∧ minCommonInteractions ≤ commonRowCount db uid u := by
  constructor
  · intro h
    simp only [candidateNeighbors, List.mem_map, List.mem_filter, List.mem_dedup] at h
    obtain ⟨⟨v, cnt⟩, ⟨hv, hcnt⟩, hfst⟩ := h
    obtain ⟨w, hw, hwv⟩ := hv
    obtain ⟨i, hi, hiw⟩ := hw
    simp only [List.mem_filter, Bool.and_eq_true, decide_eq_true_eq, bne_iff_ne] at hi
    cases hfst
    cases hwv
    refine ⟨by simpa [hiw] using hi.2.2, by simpa using hcnt⟩
  · rintro ⟨hne, hcnt⟩
    have hpos : 0 < commonRowCount db uid u := lt_of_lt_of_le (by norm_num [minCommonInteractions]) hcnt
    obtain ⟨i, hi, hiu, hip⟩ := (commonRowCount_pos_iff db uid u).mp hpos
    simp only [candidateNeighbors, List.mem_map, List.mem_filter, List.mem_dedup]
    refine ⟨(u, commonRowCount db uid u), ⟨⟨u, ⟨i, ?_, hiu⟩, rfl⟩, by simpa using hcnt⟩, rfl⟩
    simp [List.mem_filter, hi, hip, hiu, hne]

/-- C1 counterexample: with the default threshold 2, user 2 — whose whole
overlap with target user 1 is two interaction rows on the single common
product 10 — is admitted as a candidate neighbor, even though the number of
distinct common products is 1.  This falsifies the claim that qualification
counts distinct common products and that such a user does not qualify. -/
theorem neighbor_qualification_counts_rows_not_distinct :
    (userInteractions dbNeighbors 1 ≠ []) ∧
    2 ∈ (candidateNeighbors dbNeighbors 1).map Prod.fst ∧
    ((targetProductSet dbNeighbors 2).filter
      (fun x => decide (x ∈ targetProductSet dbNeighbors 1))).length = 1 := by
  refine ⟨by decide, by decide, by decide⟩

/-- C1 (amended): for a target user with a non-empty interaction history, a
user is admitted as a candidate neighbor by `find_similar_users` if and only
if it is distinct from the target and has at least `min_common_interactions`
(default 2) interaction ROWS on the target's product set — raw rows, not
distinct products, so two interactions on one common product qualify. -/
theorem neighbor_qualification_iff_row_count (db : DB) (uid u : Nat)
    (hne : userInteractions db uid ≠ []) :
    u ∈ (candidateNeighbors db uid).map Prod.fst ↔
      u ≠ uid ∧ minCommonInteractions ≤ commonRowCount db uid u :=
  mem_candidateNeighbors db uid u

/-- Witness for the amended C1 at the concrete database. -/
theorem neighbor_qualification_iff_row_count_witness :
    (userInteractions dbNeighbors 1 ≠ []) ∧
    2 ∈ (candidateNeighbors dbNeighbors 1).map Prod.fst :=
  ⟨by decide,
    (neighbor_qualification_iff_row_count dbNeighbors 1 2 (by decide)).mpr (by decide)⟩

/-! ## C2: invalid strategy values -/

/-- C2 counterexample: the strategy value `"foo"` lies outside
`{auto, hybrid, collaborative, content}`, yet the Hybrid Combiner's
`recommend_products` does not reject it — hybrid scoring runs and a non-empty
recommendation list is produced. -/
theorem invalid_strategy_falls_through_to_hybrid_cex :
    ("foo" ∉ (["auto", "hybrid", "collaborative", "content"] : List String)) ∧
    hybridServiceRecommend dbOneProduct cosZero 1 5 true "foo" ≠ [] ∧
    (hybridServiceRecommend dbOneProduct cosZero 1 5 true "foo").map (fun r => r.1.id)
      = [7] := by
  refine ⟨by decide, by decide, by decide⟩

/-- C2 (amended): the Hybrid Combiner performs no strategy validation: for an
existing user, every strategy value other than `auto`, `collaborative` and
`content` — invalid values included — is routed to the final `else` branch and
scored as `hybrid`.  (Rejection of values outside the four known strategies
happens only in the HTTP GET route, which the specification places outside
the engine.) -/
theorem invalid_strategy_treated_as_hybrid (db : DB) (cos : Nat → Nat → ℚ)
    (uid limit : Nat) (excl : Bool) (strat : String) (u : User)
    (hu : findUser db uid = some u) (h1 : strat ≠ "auto")
    (h2 : strat ≠ "collaborative") (h3 : strat ≠ "content") :
    hybridServiceRecommend db cos uid limit excl strat
      = hybridRecommend db cos uid limit excl := by
  simp only [hybridServiceRecommend, hu]
  have b1 : (strat == "auto") = false := by simpa using h1
  have b2 : (strat == "collaborative") = false := by simpa using h2
  have b3 : (strat == "content") = false := by simpa using h3
  simp [b1, b2, b3]

/-- Witness for the amended C2 at the concrete database and strategy `"foo"`. -/
theorem invalid_strategy_treated_as_hybrid_witness :
    hybridServiceRecommend dbOneProduct cosZero 1 5 true "foo"
      = hybridRecommend dbOneProduct cosZero 1 5 true :=
  invalid_strategy_treated_as_hybrid dbOneProduct cosZero 1 5 true "foo"
    { id := 1, username := "u", preferred_categories := [], preferred_brands := [] }
    (by decide) (by decide) (by decide) (by decide)

/-! ## C3: structured not-found outcomes -/

/-- C3: an unknown user id makes `get_recommendations_with_explanations`
return the structured failure `success=False, error='User not found'` —
never an empty success — and an unknown product id makes
`get_similar_products_with_explanations` return
`success=False, error='Product not found'`. -/
theorem unknown_ids_yield_structured_not_found :
    (∀ (db : DB) (cos : Nat → Nat → ℚ) (gem : Bool)
        (gen : Product → Reason → Option String) (uid limit : Nat)
        (strat : String) (incl : Bool),
      findUser db uid = none →
        getRecommendationsWithExplanations db cos gem gen uid limit strat incl
          = { success := false, error := some "User not found" }) ∧
    (∀ (db : DB) (pid limit : Nat),
      findProduct db pid = none →
        getSimilarProductsWithExplanations db pid limit
          = { success := false, error := some "Product not found" }) := by
  constructor
  · intro db cos gem gen uid limit strat incl h
    simp [getRecommendationsWithExplanations, h]
  · intro db pid limit h
    simp [getSimilarProductsWithExplanations, h]

/-- Witness for C3: user 99 and product 99 do not exist in the one-product
database. -/
theorem unknown_ids_yield_structured_not_found_witness :
    findUser dbOneProduct 99 = none ∧
    getRecommendationsWithExplanations dbOneProduct cosZero false (fun _ _ => none)
        99 5 "auto" true
      = { success := false, error := some "User not found" } ∧
    findProduct dbOneProduct 99 = none ∧
    getSimilarProductsWithExplanations dbOneProduct 99 5
      = { success := false, error := some "Product not found" } :=
  ⟨by decide,
    unknown_ids_yield_structured_not_found.1 dbOneProduct cosZero false
      (fun _ _ => none) 99 5 "auto" true (by decide),
    by decide,
    unknown_ids_yield_structured_not_found.2 dbOneProduct 99 5 (by decide)⟩

/-! ## C5: zero interactions -/

lemma interactionMatrix_nil (db : DB) (uid : Nat)
    (h : userInteractions db uid = []) : getUserInteractionMatrix db uid = [] := by
  simp [getUserInteractionMatrix, h]

lemma findSimilarUsers_nil (db : DB) (uid limit : Nat) (cos : Nat → Nat → ℚ)
    (h : userInteractions db uid = []) : findSimilarUsers db uid limit cos = [] := by
  simp [findSimilarUsers, interactionMatrix_nil db uid h]

/-- C5: a user with zero recorded interactions gets the popularity fallback
from the Collaborative Scorer (whose every entry carries reason type
`popular_fallback`), and auto-strategy resolution picks `content` for it. -/
theorem zero_interactions_popular_fallback_and_content_auto (db : DB) (uid : Nat)
    (limit : Nat) (excl : Bool) (cos : Nat → Nat → ℚ)
    (h : userInteractions db uid = []) :
    collabRecommendProducts db uid limit excl cos = popularProducts db limit ∧
    (∀ r ∈ popularProducts db limit, r.2.2.rtype = "popular_fallback") ∧
    determineBestStrategy db cos uid = "content" := by
  refine ⟨?_, ?_, ?_⟩
  · simp [collabRecommendProducts, findSimilarUsers_nil db uid 10 cos h]
  · intro r hr
    simp only [popularProducts, List.mem_map] at hr
    obtain ⟨e, _, rfl⟩ := hr
    rfl
  · simp [determineBestStrategy, h]

/-- Witness for C5: the one-product database with its interaction-free user. -/
theorem zero_interactions_popular_fallback_and_content_auto_witness :
    userInteractions dbOneProduct 1 = [] ∧
    collabRecommendProducts dbOneProduct 1 5 true cosZero
      = popularProducts dbOneProduct 5 ∧
    determineBestStrategy dbOneProduct cosZero 1 = "content" :=
  ⟨by decide,
    (zero_interactions_popular_fallback_and_content_auto dbOneProduct 1 5 true cosZero
      (by decide)).1,
    (zero_interactions_popular_fallback_and_content_auto dbOneProduct 1 5 true cosZero
      (by decide)).2.2⟩

/-! ## Sorting lemmas -/

lemma mem_insertDesc {α : Type} (key : α → ℚ) (x a : α) :
    ∀ (l : List α), a ∈ insertDesc key x l ↔ a = x ∨ a ∈ l := by
  intro l
  induction l with
  | nil => simp [insertDesc]
  | cons y ys ih =>
    simp only [insertDesc]
    split
    · simp
    · simp only [List.mem_cons, ih]
      tauto

lemma pairwise_insertDesc {α : Type} (key : α → ℚ) (x : α) :
    ∀ {l : List α}, l.Pairwise (fun a b => key b ≤ key a) →
      (insertDesc key x l).Pairwise (fun a b => key b ≤ key a) := by
  intro l
  induction l with
  | nil => simp [insertDesc]
  | cons y ys ih =>
    intro h
    rw [List.pairwise_cons] at h
    simp only [insertDesc]
    split
    · rename_i hle
      refine List.Pairwise.cons ?_ (List.Pairwise.cons h.1 h.2)
      intro b hb
      rcases List.mem_cons.mp hb with rfl | hb
      · exact hle
      · exact le_trans (h.1 b hb) hle
    · rename_i hlt
      refine List.Pairwise.cons ?_ (ih h.2)
      intro b hb
      rcases (mem_insertDesc key x b ys).mp hb with rfl | hb
      · exact le_of_lt (lt_of_not_le hlt)
      · exact h.1 b hb

lemma mem_sortByKeyDesc {α : Type} (key : α → ℚ) (a : α) :
    ∀ (l : List α), a ∈ sortByKeyDesc key l ↔ a ∈ l := by
  intro l
  induction l with
  | nil => simp [sortByKeyDesc]
  | cons x xs ih => simp [sortByKeyDesc, mem_insertDesc, ih]

lemma pairwise_sortByKeyDesc {α : Type} (key : α → ℚ) :
    ∀ (l : List α), (sortByKeyDesc key l).Pairwise (fun a b => key b ≤ key a) := by
  intro l
  induction l with
  | nil => simp [sortByKeyDesc]
  | cons x xs ih => exact pairwise_insertDesc key x ih

lemma pairwise_take {α : Type} {R : α → α → Prop} {l : List α} (n : Nat)
    (h : l.Pairwise R) : (l.take n).Pairwise R :=
  h.sublist (List.take_sublist n l)

lemma mem_take {α : Type} {l : List α} {n : Nat} {a : α}
    (h : a ∈ l.take n) : a ∈ l :=
  (List.take_sublist n l).mem h

/-! ## C7: popularity fallback ranking and scoring -/

/-- C7 counterexample: products 1 and 2 have the same interaction count (2),
product 1 has the lower average rating (1 versus 5), yet the popularity
fallback returns product 1 first — the pair (count, average rating) is NOT the
sort key; average rating never breaks ties. -/
theorem popular_fallback_tie_not_broken_by_rating_cex :
    (popularProducts dbPopular 5).map (fun r => r.1.id) = [1, 2] ∧
    interactionCount dbPopular 1 = interactionCount dbPopular 2 ∧
    (avgInteractionRating dbPopular 1).getD 0 < (avgInteractionRating dbPopular 2).getD 0 := by
  refine ⟨by decide, by decide, by decide⟩

/-- C7 (amended): the popularity fallback ranks the available, at-least-once
interacted products by interaction count descending ONLY — ties keep the
underlying order, average rating is not a secondary key — and each returned
entry scores `interaction_count + 2 * average_rating` with a missing average
treated as 0 (the reason record carrying exactly these two statistics). -/
theorem popular_fallback_rank_and_score (db : DB) (limit : Nat) :
    (∀ r ∈ popularProducts db limit,
        r.1.is_available = true ∧ 0 < interactionCount db r.1.id ∧
        r.2.2.rtype = "popular_fallback" ∧
        r.2.2.interaction_count = interactionCount db r.1.id ∧
        r.2.2.avg_rating = (avgInteractionRating db r.1.id).getD 0 ∧
        r.2.1 = (interactionCount db r.1.id : ℚ) +
          (avgInteractionRating db r.1.id).getD 0 * 2) ∧
    ((popularProducts db limit).map (fun r => r.2.2.interaction_count)).Pairwise
      (fun a b => b ≤ a) := by
  constructor
  · intro r hr
    simp only [popularProducts, List.mem_map] at hr
    obtain ⟨e, he, rfl⟩ := hr
    have he' := mem_take he
    rw [mem_sortByKeyDesc] at he'
    simp only [List.mem_map, List.mem_filter, Bool.and_eq_true, decide_eq_true_eq] at he'
    obtain ⟨p, ⟨hp, hav, hcnt⟩, rfl⟩ := he'
    exact ⟨hav, hcnt, rfl, rfl, rfl, rfl⟩
  · simp only [popularProducts, List.map_map]
    refine List.pairwise_map.mpr ?_
    refine (pairwise_take limit (pairwise_sortByKeyDesc _ _)).imp ?_
    intro a b h
    exact_mod_cast h

/-! ## C10: truncation before the availability filter -/

lemma recommendFromSimilar_entry {db : DB} {uid : Nat} {similar : List (Nat × ℚ)}
    {limit : Nat} {excl : Bool} {r : Rec3}
    (hr : r ∈ recommendFromSimilar db uid similar limit excl) :
    r.1.is_available = true := by
  simp only [recommendFromSimilar, List.mem_filterMap] at hr
  obtain ⟨e, _, heq⟩ := hr
  rcases h : findProduct db e.1 with _ | p
  · rw [h] at heq; simp at heq
  · rw [h] at heq
    by_cases hav : p.is_available = true
    · simp only [hav, if_true, Option.some.injEq] at heq
      subst heq
      exact hav
    · simp [hav] at heq

/-- C10: when qualifying neighbors exist the Collaborative Scorer returns
exactly the available products among the top-`limit` aggregated candidates:
the fallback is skipped, every returned product is available, scores descend,
and — because the availability filter runs after the truncation — the concrete
database returns strictly fewer than `limit` entries even though strictly more
than `limit` available, positively scored candidates exist. -/
theorem collab_truncate_before_availability_filter :
    (∀ (db : DB) (uid limit : Nat) (excl : Bool) (cos : Nat → Nat → ℚ),
        findSimilarUsers db uid 10 cos ≠ [] →
        collabRecommendProducts db uid limit excl cos
          = recommendFromSimilar db uid (findSimilarUsers db uid 10 cos) limit excl) ∧
    (∀ (db : DB) (uid : Nat) (similar : List (Nat × ℚ)) (limit : Nat) (excl : Bool),
        ∀ r ∈ recommendFromSimilar db uid similar limit excl,
          r.1.is_available = true) ∧
    (∀ (db : DB) (uid : Nat) (similar : List (Nat × ℚ)) (limit : Nat) (excl : Bool),
        ((recommendFromSimilar db uid similar limit excl).map (fun r => r.2.1)).Pairwise
          (fun a b => b ≤ a)) ∧
    ((collabRecommendProducts dbTruncate 1 2 true cosOne).map (fun r => r.1.id) = [102] ∧
      (collabRecommendProducts dbTruncate 1 2 true cosOne).length = 1 ∧
      2 < ((collabAggregate dbTruncate (findSimilarUsers dbTruncate 1 10 cosOne)
              (targetUserProducts dbTruncate 1 true)).filter
            (fun e => decide ((0 : ℚ) < e.2.1) &&
              (findProduct dbTruncate e.1).elim false (fun p => p.is_available))).length) := by
  refine ⟨?_, ?_, ?_, by decide, by decide, by decide⟩
  · intro db uid limit excl cos hne
    simp only [collabRecommendProducts]
    rw [if_neg (by simpa [List.isEmpty_iff] using hne)]
  · intro db uid similar limit excl r hr
    exact recommendFromSimilar_entry hr
  · intro db uid similar limit excl
    simp only [recommendFromSimilar]
    refine List.pairwise_map.mpr ?_
    refine List.Pairwise.filterMap _ ?_ (pairwise_take limit (pairwise_sortByKeyDesc _ _))
    intro a b hab x hx y hy
    rw [Option.mem_def] at hx hy
    have hx' : x.2.1 = a.2.1 := by
      rcases h : findProduct db a.1 with _ | p
      · rw [h] at hx; simp at hx
      · rw [h] at hx
        by_cases hav : p.is_available = true
        · simp only [hav, if_true, Option.some.injEq] at hx
          subst hx; rfl
        · simp [hav] at hx
    have hy' : y.2.1 = b.2.1 := by
      rcases h : findProduct db b.1 with _ | p
      · rw [h] at hy; simp at hy
      · rw [h] at hy
        by_cases hav : p.is_available = true
        · simp only [hav, if_true, Option.some.injEq] at hy
          subst hy; rfl
        · simp [hav] at hy
    rw [hx', hy']
    exact hab

/-- Witness for C10's universally quantified parts at the concrete database. -/
theorem collab_truncate_before_availability_filter_witness :
    collabRecommendProducts dbTruncate 1 2 true cosOne
      = recommendFromSimilar dbTruncate 1 (findSimilarUsers dbTruncate 1 10 cosOne) 2 true :=
  collab_truncate_before_availability_filter.1 dbTruncate 1 2 true cosOne (by decide)

/-- Witness for C7 at the concrete database: the first returned entry carries
the popularity reason and the documented score formula. -/
theorem popular_fallback_rank_and_score_witness :
    (({ id := 1, name := "P1", category := "C", subcategory := none, brand := none,
        price := 5, average_rating := 0, tags := [], is_available := true } : Product),
      (4 : ℚ),
      ({ rtype := "popular_fallback", interaction_count := 2, avg_rating := 1 } : Reason))
        ∈ popularProducts dbPopular 5 ∧
    (4 : ℚ) = (interactionCount dbPopular 1 : ℚ) +
      (avgInteractionRating dbPopular 1).getD 0 * 2 := by
  have h := (popular_fallback_rank_and_score dbPopular 5).1
    (({ id := 1, name := "P1", category := "C", subcategory := none, brand := none,
        price := 5, average_rating := 0, tags := [], is_available := true } : Product),
      (4 : ℚ),
      ({ rtype := "popular_fallback", interaction_count := 2, avg_rating := 1 } : Reason))
    (by decide)
  exact ⟨by decide, h.2.2.2.2.2⟩

/-! ## C6: hybrid blending -/

lemma foldl_min_le_init : ∀ (xs : List ℚ) (a : ℚ), xs.foldl min a ≤ a := by
  intro xs
  induction xs with
  | nil => intro a; exact le_refl a
  | cons x xs ih => intro a; exact le_trans (ih (min a x)) (min_le_left a x)

lemma foldl_min_le_mem : ∀ (xs : List ℚ) (a x : ℚ), x ∈ xs → xs.foldl min a ≤ x := by
  intro xs
  induction xs with
  | nil => intro a x hx; simp at hx
  | cons y ys ih =>
    intro a x hx
    rcases List.mem_cons.mp hx with rfl | hx
    · exact le_trans (foldl_min_le_init ys (min a x)) (min_le_right a x)
    · exact ih (min a y) x hx

lemma listMin_le_mem {l : List ℚ} {x : ℚ} (h : x ∈ l) : listMin l ≤ x := by
  cases l with
  | nil => simp at h
  | cons y ys =>
    rcases List.mem_cons.mp h with rfl | h
    · exact foldl_min_le_init ys x
    · exact foldl_min_le_mem ys y x h

lemma init_le_foldl_max : ∀ (xs : List ℚ) (a : ℚ), a ≤ xs.foldl max a := by
  intro xs
  induction xs with
  | nil => intro a; exact le_refl a
  | cons x xs ih => intro a; exact le_trans (le_max_left a x) (ih (max a x))

lemma mem_le_foldl_max : ∀ (xs : List ℚ) (a x : ℚ), x ∈ xs → x ≤ xs.foldl max a := by
  intro xs
  induction xs with
  | nil => intro a x hx; simp at hx
  | cons y ys ih =>
    intro a x hx
    rcases List.mem_cons.mp hx with rfl | hx
    · exact le_trans (le_max_right a x) (init_le_foldl_max ys (max a x))
    · exact ih (max a y) x hx

lemma mem_le_listMax {l : List ℚ} {x : ℚ} (h : x ∈ l) : x ≤ listMax l := by
  cases l with
  | nil => simp at h
  | cons y ys =>
    rcases List.mem_cons.mp h with rfl | h
    · exact init_le_foldl_max ys x
    · exact mem_le_foldl_max ys y x h

lemma minmaxNorm_nonneg {scores : List ℚ} {s : ℚ} (hs : s ∈ scores) :
    0 ≤ minmaxNorm scores s := by
  unfold minmaxNorm
  split
  · norm_num
  · rename_i hne
    have h1 : listMin scores ≤ s := listMin_le_mem hs
    have h2 : s ≤ listMax scores := mem_le_listMax hs
    have hlt : listMin scores < listMax scores :=
      lt_of_le_of_ne (le_trans h1 h2) (fun he => hne he.symm)
    have := div_nonneg (sub_nonneg.mpr h1) (le_of_lt (sub_pos.mpr hlt))
    positivity

lemma normalizeScores_eq (recs : List Rec3) :
    normalizeScores recs
      = recs.map (fun t => (t.1, minmaxNorm (recs.map (fun t => t.2.1)) t.2.1, t.2.2)) := by
  cases recs with
  | nil => rfl
  | cons r rs =>
    simp only [normalizeScores]
    split
    · rename_i h
      simp only [List.map_cons] at h ⊢
      simp [minmaxNorm, h]
    · rename_i h
      simp only [List.map_cons] at h ⊢
      simp [minmaxNorm, h]

lemma normalizeScores_score_nonneg {recs : List Rec3} :
    ∀ r ∈ normalizeScores recs, 0 ≤ r.2.1 := by
  rw [normalizeScores_eq]
  intro r hr
  obtain ⟨t, ht, rfl⟩ := List.mem_map.mp hr
  exact minmaxNorm_nonneg (List.mem_map_of_mem _ ht)

lemma getScore_upsertCombined (m : List (Nat × CEntry)) (meth : String) (w : ℚ)
    (r : Rec3) (k : Nat) :
    getScore (upsertCombined m meth w r) k
      = if k = r.1.id then getScore m k + r.2.1 * w else getScore m k := by
  induction m with
  | nil =>
    by_cases h : k = r.1.id
    · have hb : (r.1.id == k) = true := beq_iff_eq.mpr h.symm
      simp [upsertCombined, getScore, hb, h]
    · have hb : (r.1.id == k) = false := beq_eq_false_iff_ne.mpr (Ne.symm h)
      simp [upsertCombined, getScore, hb, h]
  | cons e rest ih =>
    by_cases he : e.1 = r.1.id
    · have hbe : (e.1 == r.1.id) = true := beq_iff_eq.mpr he
      by_cases hk : k = e.1
      · have hbk : (e.1 == k) = true := beq_iff_eq.mpr hk.symm
        have hkr : k = r.1.id := hk.trans he
        simp [upsertCombined, getScore, hbe, hbk, hkr]
      · have hbk : (e.1 == k) = false := beq_eq_false_iff_ne.mpr (fun h2 => hk h2.symm)
        have hkr : ¬ k = r.1.id := fun h2 => hk (h2.trans he.symm)
        simp [upsertCombined, getScore, hbe, hbk, hkr]
    · have hbe : (e.1 == r.1.id) = false := beq_eq_false_iff_ne.mpr he
      by_cases hk : k = e.1
      · have hbk : (e.1 == k) = true := beq_iff_eq.mpr hk.symm
        have hkr : ¬ k = r.1.id := fun h2 => he (hk ▸ h2 ▸ rfl)
        simp [upsertCombined, getScore, hbe, hbk, hkr]
      · have hbk : (e.1 == k) = false := beq_eq_false_iff_ne.mpr (fun h2 => hk h2.symm)
        simp only [upsertCombined, hbe, if_false, getScore, hbk]
        exact ih

lemma getScore_foldl (meth : String) (w : ℚ) (k : Nat) :
    ∀ (recs : List Rec3) (m : List (Nat × CEntry)),
      getScore (recs.foldl (fun m r => upsertCombined m meth w r) m) k
        = getScore m k
          + ((recs.filter (fun r => r.1.id == k)).map (fun r => r.2.1)).sum * w := by
  intro recs
  induction recs with
  | nil => intro m; simp
  | cons r rs ih =>
    intro m
    simp only [List.foldl_cons, ih, getScore_upsertCombined]
    by_cases h : k = r.1.id
    · have hb : (r.1.id == k) = true := beq_iff_eq.mpr h.symm
      simp only [List.filter_cons, hb, if_true, List.map_cons, List.sum_cons, h,
        beq_self_eq_true]
      ring
    · have hb : (r.1.id == k) = false := beq_eq_false_iff_ne.mpr (Ne.symm h)
      simp [List.filter_cons, hb, h]

lemma filter_eq_single_of_nodup {l : List Rec3} {p : Product} {s : ℚ} {r : Reason}
    (hnd : (l.map (fun t => t.1.id)).Nodup) (hm : (p, s, r) ∈ l) :
    l.filter (fun t => t.1.id == p.id) = [(p, s, r)] := by
  induction l with
  | nil => simp at hm
  | cons a l ih =>
    rw [List.map_cons, List.nodup_cons] at hnd
    rcases List.mem_cons.mp hm with rfl | hm'
    · simp only [List.filter_cons, beq_self_eq_true, if_true]
      have : l.filter (fun t => t.1.id == p.id) = [] := by
        rw [List.filter_eq_nil_iff]
        intro t ht hbt
        exact hnd.1 (List.mem_map.mpr ⟨t, ht, (beq_iff_eq.mp hbt)⟩)
      rw [this]
    · have hne : (a.1.id == p.id) = false := by
        refine beq_eq_false_iff_ne.mpr (fun he => hnd.1 ?_)
        exact he ▸ List.mem_map.mpr ⟨(p, s, r), hm', rfl⟩
      simp only [List.filter_cons, hne, if_false]
      exact ih hnd.2 hm'

lemma upsert_scores_nonneg {m : List (Nat × CEntry)} {meth : String} {w : ℚ} {r : Rec3}
    (hm : ∀ e ∈ m, 0 ≤ e.2.score) (hr : 0 ≤ r.2.1 * w) :
    ∀ e ∈ upsertCombined m meth w r, 0 ≤ e.2.score := by
  induction m with
  | nil =>
    intro e he
    simp only [upsertCombined, List.mem_singleton] at he
    subst he
    exact hr
  | cons a rest ih =>
    intro e he
    simp only [upsertCombined] at he
    split at he
    · rcases List.mem_cons.mp he with rfl | he'
      · exact add_nonneg (hm a (List.mem_cons_self a rest)) hr
      · exact hm e (List.mem_cons_of_mem a he')
    · rcases List.mem_cons.mp he with rfl | he'
      · exact hm e (List.mem_cons_self e rest)
      · exact ih (fun e' he' => hm e' (List.mem_cons_of_mem a he')) e he'

lemma foldl_scores_nonneg {meth : String} {w : ℚ} (hw : 0 ≤ w) :
    ∀ (recs : List Rec3) (m : List (Nat × CEntry)),
      (∀ r ∈ recs, 0 ≤ r.2.1) → (∀ e ∈ m, 0 ≤ e.2.score) →
      ∀ e ∈ recs.foldl (fun m r => upsertCombined m meth w r) m, 0 ≤ e.2.score := by
  intro recs
  induction recs with
  | nil => intro m _ hm e he; exact hm e he
  | cons r rs ih =>
    intro m hrecs hm e he
    simp only [List.foldl_cons] at he
    refine ih (upsertCombined m meth w r) (fun t ht => hrecs t (List.mem_cons_of_mem r ht))
      (upsert_scores_nonneg hm ?_) e he
    exact mul_nonneg (hrecs r (List.mem_cons_self r rs)) hw

lemma foldl_min_const : ∀ (xs : List ℚ) (c : ℚ), (∀ x ∈ xs, x = c) → xs.foldl min c = c := by
  intro xs
  induction xs with
  | nil => intro c _; rfl
  | cons x xs ih =>
    intro c h
    have hx : x = c := h x (List.mem_cons_self x xs)
    simp only [List.foldl_cons, hx, min_self]
    exact ih c (fun y hy => h y (List.mem_cons_of_mem x hy))

lemma foldl_max_const : ∀ (xs : List ℚ) (c : ℚ), (∀ x ∈ xs, x = c) → xs.foldl max c = c := by
  intro xs
  induction xs with
  | nil => intro c _; rfl
  | cons x xs ih =>
    intro c h
    have hx : x = c := h x (List.mem_cons_self x xs)
    simp only [List.foldl_cons, hx, max_self]
    exact ih c (fun y hy => h y (List.mem_cons_of_mem x hy))

/-- C6: under the default weights 0.6/0.4, every blended score is
non-negative; normalizing a constant score list yields the uniform value 50;
and a product present in both (id-duplicate-free) candidate lists gets the
combined score `0.6 * collab_normalized + 0.4 * content_normalized`, exactly
over ℚ (hence within any floating-point tolerance). -/
theorem hybrid_blend_properties :
    (∀ (collabRecs contentRecs : List Rec3) (limit : Nat),
        ∀ r ∈ hybridCombine collaborativeWeight contentWeight collabRecs contentRecs limit,
          0 ≤ r.2.1) ∧
    (∀ (recs : List Rec3) (c : ℚ), (∀ s ∈ recs.map (fun t => t.2.1), s = c) →
        normalizeScores recs = recs.map (fun t => (t.1, (50 : ℚ), t.2.2))) ∧
    (∀ (collabRecs contentRecs : List Rec3) (p : Product) (s1 s2 : ℚ) (r1 r2 : Reason),
        (collabRecs.map (fun t => t.1.id)).Nodup →
        (contentRecs.map (fun t => t.1.id)).Nodup →
        (p, s1, r1) ∈ collabRecs → (p, s2, r2) ∈ contentRecs →
        getScore (combinedMap collaborativeWeight contentWeight
            (normalizeScores collabRecs) (normalizeScores contentRecs)) p.id
          = collaborativeWeight * minmaxNorm (collabRecs.map (fun t => t.2.1)) s1
            + contentWeight * minmaxNorm (contentRecs.map (fun t => t.2.1)) s2) := by
  refine ⟨?_, ?_, ?_⟩
  · intro cr tr limit r hr
    simp only [hybridCombine] at hr
    obtain ⟨e, he, rfl⟩ := List.mem_map.mp hr
    have he1 := mem_take he
    rw [mem_sortByKeyDesc] at he1
    simp only [combinedMap] at he1
    have hinner : ∀ e' ∈ (normalizeScores cr).foldl
        (fun m r => upsertCombined m "collaborative" collaborativeWeight r) [],
        0 ≤ e'.2.score := by
      refine foldl_scores_nonneg (by norm_num [collaborativeWeight]) _ _
        (fun t ht => normalizeScores_score_nonneg t ht) (by simp)
    exact foldl_scores_nonneg (by norm_num [contentWeight]) _ _
      (fun t ht => normalizeScores_score_nonneg t ht) hinner e he1
  · intro recs c h
    cases recs with
    | nil => rfl
    | cons r rs =>
      simp only [List.map_cons] at h
      have hx : r.2.1 = c := h r.2.1 (List.mem_cons_self _ _)
      have hrest : ∀ x ∈ rs.map (fun t => t.2.1), x = c :=
        fun x hx2 => h x (List.mem_cons_of_mem _ hx2)
      have hmin : listMin (r.2.1 :: rs.map (fun t => t.2.1)) = c := by
        simp only [listMin, hx]
        exact foldl_min_const _ c hrest
      have hmax : listMax (r.2.1 :: rs.map (fun t => t.2.1)) = c := by
        simp only [listMax, hx]
        exact foldl_max_const _ c hrest
      simp only [normalizeScores, List.map_cons]
      rw [if_pos (by rw [hmax, hmin])]
  · intro cr tr p s1 s2 r1 r2 h1 h2 hm1 hm2
    have hid1 : ((normalizeScores cr).map (fun t => t.1.id)).Nodup := by
      rw [normalizeScores_eq, List.map_map]
      exact h1
    have hid2 : ((normalizeScores tr).map (fun t => t.1.id)).Nodup := by
      rw [normalizeScores_eq, List.map_map]
      exact h2
    have hmm1 : (p, minmaxNorm (cr.map (fun t => t.2.1)) s1, r1) ∈ normalizeScores cr := by
      rw [normalizeScores_eq]
      exact List.mem_map.mpr ⟨(p, s1, r1), hm1, rfl⟩
    have hmm2 : (p, minmaxNorm (tr.map (fun t => t.2.1)) s2, r2) ∈ normalizeScores tr := by
      rw [normalizeScores_eq]
      exact List.mem_map.mpr ⟨(p, s2, r2), hm2, rfl⟩
    have e1 := filter_eq_single_of_nodup hid1 hmm1
    have e2 := filter_eq_single_of_nodup hid2 hmm2
    simp only [combinedMap, getScore_foldl, e1, e2, List.map_cons, List.map_nil,
      List.sum_cons, List.sum_nil, getScore]
    ring

/-- Witness for C6's blend formula at concrete two-element candidate lists. -/
theorem hybrid_blend_properties_witness :
    (blendCollab.map (fun t => t.1.id)).Nodup ∧
    getScore (combinedMap collaborativeWeight contentWeight
        (normalizeScores blendCollab) (normalizeScores blendContent))
        ((mkRec 1 "A").1).id
      = collaborativeWeight * minmaxNorm (blendCollab.map (fun t => t.2.1)) 10
        + contentWeight * minmaxNorm (blendContent.map (fun t => t.2.1)) 1 :=
  ⟨by decide,
    hybrid_blend_properties.2.2 blendCollab blendContent (mkRec 1 "A").1 10 1
      { rtype := "x" } { rtype := "x" } (by decide) (by decide) (by decide) (by decide)⟩

/-! ## C9: preference profile from positive weights -/

lemma prefStep_nonpos {s : PrefState} {p : Product} {i : Interaction}
    (h : getInteractionWeight i.interaction_type ≤ 0) : prefStep s p i = s := by
  unfold prefStep
  rw [if_neg]
  rw [not_lt]
  exact_mod_cast h

lemma prefFold_filter_pos :
    ∀ (l : List (Product × Interaction)) (s : PrefState),
      prefFold (l.filter (fun pi => decide (0 < getInteractionWeight pi.2.interaction_type))) s
        = prefFold l s := by
  intro l
  induction l with
  | nil => intro s; rfl
  | cons pi l ih =>
    intro s
    obtain ⟨p, i⟩ := pi
    by_cases h : 0 < getInteractionWeight i.interaction_type
    · simp only [List.filter_cons, decide_eq_true_eq, h, if_true]
      simpa [prefFold] using ih (prefStep s p i)
    · simp only [List.filter_cons, decide_eq_true_eq, h, if_false]
      rw [ih s]
      show prefFold l s = prefFold l (prefStep s p i)
      rw [prefStep_nonpos (not_lt.mp h)]

lemma filterMap_pairs_filter (db : DB) :
    ∀ (l : List Interaction),
      ((l.filter (fun i => decide (0 < getInteractionWeight i.interaction_type))).filterMap
          (fun i => (findProduct db i.product_id).map (fun p => (p, i))))
        = (l.filterMap (fun i => (findProduct db i.product_id).map (fun p => (p, i)))).filter
            (fun pi => decide (0 < getInteractionWeight pi.2.interaction_type)) := by
  intro l
  induction l with
  | nil => rfl
  | cons i l ih =>
    by_cases h : 0 < getInteractionWeight i.interaction_type
    · cases hfp : findProduct db i.product_id <;>
        simp [List.filter_cons, List.filterMap_cons, h, hfp, ih]
    · cases hfp : findProduct db i.product_id <;>
        simp [List.filter_cons, List.filterMap_cons, h, hfp, ih]

lemma prefFold_views (db : DB) :
    ∀ (l : List (Product × Interaction)) (s : PrefState) (c : ℚ),
      (∀ pi ∈ l, pi.2.interaction_type = "view" ∧ pi.1.category = "Electronics") →
      s.categories = [("Electronics", c)] →
      (prefFold l s).categories = [("Electronics", c + 2 * (l.length : ℚ))] := by
  intro l
  induction l with
  | nil => intro s c _ hs; simpa [prefFold] using hs
  | cons pi l ih =>
    intro s c h hs
    obtain ⟨p, i⟩ := pi
    have hview : i.interaction_type = "view" := (h (p, i) (List.mem_cons_self _ _)).1
    have hcat : p.category = "Electronics" := (h (p, i) (List.mem_cons_self _ _)).2
    show (prefFold l (prefStep s p i)).categories = _
    have hw : ((getInteractionWeight "view" : Int) : ℚ) = 2 := by decide
    have hstep : (prefStep s p i).categories = [("Electronics", c + 2)] := by
      unfold prefStep
      rw [if_pos (by rw [hview]; decide)]
      show addCount s.categories p.category _ = _
      rw [hcat, hs, hview, hw]
      simp [addCount]
    rw [ih (prefStep s p i) (c + 2)
      (fun t ht => h t (List.mem_cons_of_mem _ ht)) hstep]
    have harith : c + 2 + 2 * ((l.length : ℚ))
        = c + 2 * ((((p, i) :: l).length : ℚ)) := by
      push_cast [List.length_cons]
      ring
    rw [harith]

lemma pairs_length_of_isSome (db : DB) :
    ∀ (l : List Interaction),
      (∀ i ∈ l, (findProduct db i.product_id).isSome) →
      (l.filterMap (fun i => (findProduct db i.product_id).map (fun p => (p, i)))).length
        = l.length := by
  intro l
  induction l with
  | nil => intro _; rfl
  | cons i l ih =>
    intro h
    rcases hfp : findProduct db i.product_id with _ | p
    · exact absurd (h i (List.mem_cons_self _ _)) (by simp [hfp])
    · simp [List.filterMap_cons, hfp,
        ih (fun t ht => h t (List.mem_cons_of_mem _ ht))]

/-- C9: the preference profile is built only from interactions with strictly
positive type weight (removing a user's non-positive-weight interactions
changes nothing), and a user whose interactions are all `view`s (weight 2) on
existing Electronics products gets `preferred_categories` equal to
`Electronics` with aggregate weight `2 * number_of_views`. -/
theorem preference_profile_positive_weights_only :
    (∀ (db : DB) (uid : Nat),
        extractUserPreferences (dropNonPositive db uid) uid
          = extractUserPreferences db uid) ∧
    (∀ (db : DB) (uid : Nat),
        userInteractions db uid ≠ [] →
        (∀ i ∈ userInteractions db uid, i.interaction_type = "view" ∧
          ∃ p, findProduct db i.product_id = some p ∧ p.category = "Electronics") →
        (extractUserPreferences db uid).preferred_categories
          = [("Electronics", 2 * ((userInteractions db uid).length : ℚ))]) := by
  constructor
  · intro db uid
    have hui : userInteractions (dropNonPositive db uid) uid
        = (userInteractions db uid).filter
            (fun i => decide (0 < getInteractionWeight i.interaction_type)) := by
      simp only [userInteractions, dropNonPositive, List.filter_filter]
      apply List.filter_congr
      intro i _
      cases h : (i.user_id == uid) <;> simp [h]
    have hpairs : userProductPairs (dropNonPositive db uid) uid
        = (userProductPairs db uid).filter
            (fun pi => decide (0 < getInteractionWeight pi.2.interaction_type)) := by
      simp only [userProductPairs, hui]
      exact filterMap_pairs_filter db (userInteractions db uid)
    unfold extractUserPreferences
    rw [hpairs, prefFold_filter_pos]
    rfl
  · intro db uid hne h
    have hsome : ∀ i ∈ userInteractions db uid, (findProduct db i.product_id).isSome := by
      intro i hi
      obtain ⟨p, hp, _⟩ := (h i hi).2
      simp [hp]
    have hlen : (userProductPairs db uid).length = (userInteractions db uid).length :=
      pairs_length_of_isSome db _ hsome
    have hprops : ∀ pi ∈ userProductPairs db uid,
        pi.2.interaction_type = "view" ∧ pi.1.category = "Electronics" := by
      intro pi hpi
      simp only [userProductPairs, List.mem_filterMap] at hpi
      obtain ⟨i, hi, hmap⟩ := hpi
      obtain ⟨p, hp, hcat⟩ := (h i hi).2
      rw [hp] at hmap
      simp only [Option.map_some', Option.some_inj] at hmap
      subst hmap
      exact ⟨(h i hi).1, hcat⟩
    rcases hp : userProductPairs db uid with _ | ⟨⟨p0, i0⟩, rest⟩
    · rw [hp] at hlen
      exact absurd hlen.symm (by simpa using hne)
    · have hfirst := hprops (p0, i0) (by rw [hp]; exact List.mem_cons_self _ _)
      have hv : i0.interaction_type = "view" := hfirst.1
      have hc : p0.category = "Electronics" := hfirst.2
      have hw : ((getInteractionWeight "view" : Int) : ℚ) = 2 := by decide
      have hstep : (prefStep {} p0 i0).categories = [("Electronics", 2)] := by
        unfold prefStep
        rw [if_pos (by rw [hv]; decide)]
        show addCount ({} : PrefState).categories p0.category _ = _
        rw [hc, hv, hw]
        rfl
      have hfold : (prefFold (userProductPairs db uid) {}).categories
          = [("Electronics", 2 + 2 * (rest.length : ℚ))] := by
        rw [hp]
        show (prefFold rest (prefStep {} p0 i0)).categories = _
        exact prefFold_views db rest (prefStep {} p0 i0) 2
          (fun t ht => hprops t (by rw [hp]; exact List.mem_cons_of_mem _ ht)) hstep
      have hn : ((userInteractions db uid).length : ℚ) = (rest.length : ℚ) + 1 := by
        rw [← hlen, hp]
        push_cast [List.length_cons]
        ring
      simp only [extractUserPreferences, hfold, mostCommon, sortByKeyDesc, insertDesc,
        List.take, hn]
      norm_num
      ring

/-- Witness for C9 at the two-view database: Electronics carries weight 4. -/
theorem preference_profile_positive_weights_only_witness :
    userInteractions dbViews 1 ≠ [] ∧
    (extractUserPreferences dbViews 1).preferred_categories
      = [("Electronics", 2 * ((userInteractions dbViews 1).length : ℚ))] := by
  refine ⟨by decide, preference_profile_positive_weights_only.2 dbViews 1 (by decide) ?_⟩
  intro i hi
  have hl : userInteractions dbViews 1
      = [{ user_id := 1, product_id := 20, interaction_type := "view", rating := none },
         { user_id := 1, product_id := 20, interaction_type := "view", rating := none }] := by
    decide
  have hp : findProduct dbViews 20
      = some { id := 20, name := "TV", category := "Electronics", subcategory := none,
               brand := none, price := 100, average_rating := 4, tags := [],
               is_available := true } := by decide
  rw [hl] at hi
  rcases List.mem_cons.mp hi with rfl | hi2
  · exact ⟨rfl, _, hp, rfl⟩
  · rcases List.mem_cons.mp hi2 with rfl | hi3
    · exact ⟨rfl, _, hp, rfl⟩
    · simp at hi3

/-! ## C4: deterministic fallback explanations -/

lemma isPrefixOf_append_self : ∀ (l t : List Char), l.isPrefixOf (l ++ t) = true := by
  intro l
  induction l with
  | nil => intro t; simp
  | cons c l ih => intro t; simp [List.isPrefixOf_cons₂, ih t]

lemma hasSub_here (pat tail : List Char) : hasSub pat (pat ++ tail) = true := by
  cases pat with
  | nil => cases tail <;> simp [hasSub]
  | cons q qs => simp [hasSub, isPrefixOf_append_self]

lemma hasSub_append_left (a : List Char) {pat s : List Char}
    (h : hasSub pat s = true) : hasSub pat (a ++ s) = true := by
  induction a with
  | nil => exact h
  | cons c a ih => simp [hasSub, ih]

lemma str_ne_empty_of_data {s : String} (h : s.data ≠ []) : s ≠ "" :=
  fun he => h (he ▸ rfl)

lemma data_append_ne_nil {a s : List Char} (ha : a ≠ []) : a ++ s ≠ [] :=
  fun h => ha (List.append_eq_nil.mp h).1

/-- C4 counterexample: for the concrete product `widget` (category
`Electronics`, rating 4.5), the hybrid-reason fallback sentence does not
reference the product's category, and the content-based fallback with no
matched flags references neither the category nor the rating — so not every
reason type's fallback references name, category AND rating. -/
theorem fallback_hybrid_template_omits_category_cex :
    widget.category = "Electronics" ∧
    mentions (generateFallbackExplanation widget { rtype := "hybrid" })
      "Electronics" = false ∧
    mentions (generateFallbackExplanation widget { rtype := "content_based" })
      "Electronics" = false ∧
    mentions (generateFallbackExplanation widget { rtype := "content_based" })
      (fmtRating1 widget.average_rating) = false := by
  refine ⟨by decide, by decide, by decide, by decide⟩

/-- C4 (amended): when the text-generation collaborator signals failure the
explanation is the deterministic fallback template keyed by the reason type;
every template yields a non-empty sentence referencing the product's name; the
collaborative template additionally references the category and the rating;
the hybrid template references the rating (but not the category); the
unknown-type template references the category (but not the rating); the
content-based template references the category exactly when the reason's
matched_category flag is set. -/
theorem fallback_explanation_properties :
    (∀ (gen : Product → Reason → Option String) (incl : Bool) (p : Product) (r : Reason),
        gen p r = none →
        chooseExplanation true gen incl p r = generateFallbackExplanation p r) ∧
    (∀ (p : Product) (r : Reason),
        generateFallbackExplanation p r ≠ "" ∧
        mentions (generateFallbackExplanation p r) p.name = true) ∧
    (∀ (p : Product) (r : Reason), r.rtype = "collaborative" →
        mentions (generateFallbackExplanation p r) p.category = true ∧
        mentions (generateFallbackExplanation p r) (fmtRating1 p.average_rating) = true) ∧
    (∀ (p : Product) (r : Reason), r.rtype = "hybrid" →
        mentions (generateFallbackExplanation p r) (fmtRating1 p.average_rating) = true) ∧
    (∀ (p : Product) (r : Reason),
        r.rtype ≠ "collaborative" → r.rtype ≠ "content_based" → r.rtype ≠ "hybrid" →
        mentions (generateFallbackExplanation p r) p.category = true) ∧
    (∀ (p : Product) (r : Reason), r.rtype = "content_based" → r.matched_category = true →
        mentions (generateFallbackExplanation p r) p.category = true) := by
  refine ⟨?_, ?_, ?_, ?_, ?_, ?_⟩
  · intro gen incl p r h
    cases incl <;> simp [chooseExplanation, h]
  · intro p r
    constructor
    · unfold generateFallbackExplanation
      split
      · apply str_ne_empty_of_data
        simp only [String.data_append, List.append_assoc]
        exact data_append_ne_nil (by decide)
      · split
        · cases hmc : r.matched_category <;> cases hmb : r.matched_brand <;>
            · simp only [hmc, hmb, Bool.false_eq_true, if_false, if_true, joinSpace]
              apply str_ne_empty_of_data
              simp only [String.data_append, List.append_assoc]
              exact data_append_ne_nil (by decide)
        · split
          · apply str_ne_empty_of_data
            simp only [String.data_append, List.append_assoc]
            exact data_append_ne_nil (by decide)
          · apply str_ne_empty_of_data
            simp only [String.data_append, List.append_assoc]
            exact data_append_ne_nil (by decide)
    · unfold generateFallbackExplanation
      split
      · simp only [mentions, String.data_append, List.append_assoc]
        repeat first
          | exact hasSub_here _ _
          | apply hasSub_append_left
      · split
        · cases hmc : r.matched_category <;> cases hmb : r.matched_brand <;>
            · simp only [hmc, hmb, Bool.false_eq_true, if_false, if_true, joinSpace]
              simp only [mentions, String.data_append, List.append_assoc]
              repeat first
          | exact hasSub_here _ _
          | apply hasSub_append_left
        · split
          · simp only [mentions, String.data_append, List.append_assoc]
            repeat first
          | exact hasSub_here _ _
          | apply hasSub_append_left
          · simp only [mentions, String.data_append, List.append_assoc]
            repeat first
          | exact hasSub_here _ _
          | apply hasSub_append_left
  · intro p r h
    have hb : (r.rtype == "collaborative") = true := beq_iff_eq.mpr h
    constructor
    · simp only [generateFallbackExplanation, hb, if_true]
      simp only [mentions, String.data_append, List.append_assoc]
      repeat first
        | exact hasSub_here _ _
        | apply hasSub_append_left
    · simp only [generateFallbackExplanation, hb, if_true]
      simp only [mentions, String.data_append, List.append_assoc]
      repeat first
        | exact hasSub_here _ _
        | apply hasSub_append_left
  · intro p r h
    have hb1 : (r.rtype == "collaborative") = false := by simp [h]
    have hb2 : (r.rtype == "content_based") = false := by simp [h]
    have hb3 : (r.rtype == "hybrid") = true := beq_iff_eq.mpr h
    simp only [generateFallbackExplanation, hb1, hb2, hb3, Bool.false_eq_true,
      if_false, if_true]
    simp only [mentions, String.data_append, List.append_assoc]
    repeat first
      | exact hasSub_here _ _
      | apply hasSub_append_left
  · intro p r h1 h2 h3
    have hb1 : (r.rtype == "collaborative") = false := beq_eq_false_iff_ne.mpr h1
    have hb2 : (r.rtype == "content_based") = false := beq_eq_false_iff_ne.mpr h2
    have hb3 : (r.rtype == "hybrid") = false := beq_eq_false_iff_ne.mpr h3
    simp only [generateFallbackExplanation, hb1, hb2, hb3, Bool.false_eq_true, if_false]
    simp only [mentions, String.data_append, List.append_assoc]
    repeat first
      | exact hasSub_here _ _
      | apply hasSub_append_left
  · intro p r h hmc
    have hb1 : (r.rtype == "collaborative") = false := by simp [h]
    have hb2 : (r.rtype == "content_based") = true := beq_iff_eq.mpr h
    simp only [generateFallbackExplanation, hb1, hb2, Bool.false_eq_true,
      if_false, if_true, hmc]
    cases hmb : r.matched_brand <;>
      · simp only [hmb, Bool.false_eq_true, if_false, if_true, joinSpace]
        simp only [mentions, String.data_append, List.append_assoc]
        repeat first
          | exact hasSub_here _ _
          | apply hasSub_append_left

/-- Witness for C4 at the concrete product and a failing collaborator. -/
theorem fallback_explanation_properties_witness :
    chooseExplanation true (fun _ _ => none) true widget
        { rtype := "collaborative", recommenders_count := 2 }
      = generateFallbackExplanation widget
        { rtype := "collaborative", recommenders_count := 2 } ∧
    mentions (generateFallbackExplanation widget
        { rtype := "collaborative", recommenders_count := 2 }) widget.category = true :=
  ⟨fallback_explanation_properties.1 (fun _ _ => none) true widget
      { rtype := "collaborative", recommenders_count := 2 } rfl,
    (fallback_explanation_properties.2.2.1 widget
      { rtype := "collaborative", recommenders_count := 2 } rfl).1⟩

/-! ## C8: diversity round-robin -/

lemma upsertBucket_total : ∀ (m : List (String × List Rec3)) (c : String) (r : Rec3),
    ((upsertBucket m c r).map (fun b => b.2.length)).sum
      = (m.map (fun b => b.2.length)).sum + 1 := by
  intro m
  induction m with
  | nil => intro c r; simp [upsertBucket]
  | cons b rest ih =>
    intro c r
    by_cases h : b.1 == c
    · simp only [upsertBucket, h, if_true, List.map_cons, List.sum_cons,
        List.length_append, List.length_singleton]
      omega
    · simp only [upsertBucket, h, Bool.false_eq_true, if_false, List.map_cons,
        List.sum_cons, ih c r]
      omega

lemma groupBy_total_aux : ∀ (recs : List Rec3) (m : List (String × List Rec3)),
    (((recs.foldl (fun m r => upsertBucket m r.1.category r) m)).map
        (fun b => b.2.length)).sum
      = (m.map (fun b => b.2.length)).sum + recs.length := by
  intro recs
  induction recs with
  | nil => intro m; simp
  | cons r rest ih =>
    intro m
    simp only [List.foldl_cons, ih, upsertBucket_total, List.length_cons]
    omega

lemma groupBy_total (recs : List Rec3) :
    ((groupByCategory recs).map (fun b => b.2.length)).sum = recs.length := by
  simpa using groupBy_total_aux recs []

lemma upsertBucket_cat_inv {m : List (String × List Rec3)} {c : String} {x : Rec3}
    (hP : ∀ b ∈ m, ∀ r ∈ b.2, r.1.category = b.1) (hx : x.1.category = c) :
    ∀ b ∈ upsertBucket m c x, ∀ r ∈ b.2, r.1.category = b.1 := by
  induction m with
  | nil =>
    intro b hb r hr
    simp only [upsertBucket, List.mem_singleton] at hb
    subst hb
    simp only [List.mem_singleton] at hr
    subst hr
    exact hx
  | cons b0 rest ih =>
    intro b hb r hr
    by_cases h : b0.1 == c
    · simp only [upsertBucket, h, if_true] at hb
      rcases List.mem_cons.mp hb with rfl | hb'
      · rcases List.mem_append.mp hr with hr' | hr'
        · exact hP b0 (List.mem_cons_self _ _) r hr'
        · simp only [List.mem_singleton] at hr'
          subst hr'
          exact hx.trans (beq_iff_eq.mp h).symm
      · exact hP b (List.mem_cons_of_mem _ hb') r hr
    · simp only [upsertBucket, h, Bool.false_eq_true, if_false] at hb
      rcases List.mem_cons.mp hb with rfl | hb'
      · exact hP b (List.mem_cons_self _ _) r hr
      · exact ih (fun b' hb' => hP b' (List.mem_cons_of_mem _ hb')) b hb' r hr

lemma groupBy_cat_inv_aux : ∀ (recs : List Rec3) (m : List (String × List Rec3)),
    (∀ b ∈ m, ∀ r ∈ b.2, r.1.category = b.1) →
    ∀ b ∈ recs.foldl (fun m r => upsertBucket m r.1.category r) m,
      ∀ r ∈ b.2, r.1.category = b.1 := by
  intro recs
  induction recs with
  | nil => intro m hP; exact hP
  | cons r rest ih =>
    intro m hP
    simp only [List.foldl_cons]
    exact ih _ (upsertBucket_cat_inv hP rfl)

lemma groupBy_cat_inv {recs : List Rec3} {b : String × List Rec3}
    (hb : b ∈ groupByCategory recs) {r : Rec3} (hr : r ∈ b.2) :
    r.1.category = b.1 :=
  groupBy_cat_inv_aux recs [] (by simp) b hb r hr

lemma exists_cons_of_length_succ {α : Type} {l : List α} {n : Nat}
    (h : l.length = n + 1) : ∃ x t, l = x :: t ∧ t.length = n := by
  cases l with
  | nil => simp at h
  | cons x t => exact ⟨x, t, rfl, by simpa using h⟩

/-- C8 counterexample: with buckets A:5, B:1, C:3 (in that order) and
limit 6, the output's category sequence is A, B, A, C, A, C — category A is
drawn a second time (position 3) before the still-non-empty category C has
been drawn at all, because removing the exhausted bucket B shifts the
round-robin index.  This falsifies the claimed once-per-round discipline. -/
theorem diversity_round_robin_skips_category_cex :
    (diversitySelect recsDiversity 6 (3/10)).map (fun r => r.1.category)
      = ["A", "B", "A", "C", "A", "C"] ∧
    (((diversitySelect recsDiversity 6 (3/10)).map (fun r => r.1.category)).take 3).count
      "A" = 2 ∧
    "C" ∉ ((diversitySelect recsDiversity 6 (3/10)).map (fun r => r.1.category)).take 3 := by
  refine ⟨by decide, by decide, by decide⟩

/-- C8 (amended): for every recommendation list whose category buckets are
A:5, B:1, C:3 in first-appearance order with limit 6 and positive diversity
factor, the output has exactly `min(limit, total)` = 6 items and contains at
least one item of every category, but the interleaving is A, B, A, C, A, C:
after bucket B is exhausted and removed, the index shift skips category C's
first-round turn, so the round-robin once-per-round discipline does not hold. -/
theorem diversity_selection_on_5_1_3_buckets
    (recs : List Rec3) (df : ℚ) (la lb lc : List Rec3)
    (hdf : 0 < df)
    (hG : groupByCategory recs = [("A", la), ("B", lb), ("C", lc)])
    (h5 : la.length = 5) (h1 : lb.length = 1) (h3 : lc.length = 3) :
    (diversitySelect recs 6 df).length = min 6 recs.length ∧
    (∀ c ∈ (["A", "B", "C"] : List String),
        c ∈ (diversitySelect recs 6 df).map (fun r => r.1.category)) ∧
    (diversitySelect recs 6 df).map (fun r => r.1.category)
      = ["A", "B", "A", "C", "A", "C"] := by
  have h9 : recs.length = 9 := by
    have htot := groupBy_total recs
    rw [hG] at htot
    simp only [List.map_cons, List.map_nil, List.sum_cons, List.sum_nil] at htot
    omega
  obtain ⟨a1, la1, rfl, h5a⟩ := exists_cons_of_length_succ (show la.length = 4 + 1 by omega)
  obtain ⟨a2, la2, rfl, h5b⟩ := exists_cons_of_length_succ (show la1.length = 3 + 1 by omega)
  obtain ⟨a3, la3, rfl, h5c⟩ := exists_cons_of_length_succ (show la2.length = 2 + 1 by omega)
  obtain ⟨a4, la4, rfl, h5d⟩ := exists_cons_of_length_succ (show la3.length = 1 + 1 by omega)
  obtain ⟨a5, la5, rfl, h5e⟩ := exists_cons_of_length_succ (show la4.length = 0 + 1 by omega)
  obtain rfl : la5 = [] := List.length_eq_zero.mp (by omega)
  obtain ⟨b1, lb1, rfl, h1a⟩ := exists_cons_of_length_succ (show lb.length = 0 + 1 by omega)
  obtain rfl : lb1 = [] := List.length_eq_zero.mp (by omega)
  obtain ⟨c1, lc1, rfl, h3a⟩ := exists_cons_of_length_succ (show lc.length = 2 + 1 by omega)
  obtain ⟨c2, lc2, rfl, h3b⟩ := exists_cons_of_length_succ (show lc1.length = 1 + 1 by omega)
  obtain ⟨c3, lc3, rfl, h3c⟩ := exists_cons_of_length_succ (show lc2.length = 0 + 1 by omega)
  obtain rfl : lc3 = [] := List.length_eq_zero.mp (by omega)
  have hsel : diversitySelect recs 6 df = [a1, b1, a2, c1, a3, c2] := by
    unfold diversitySelect
    rw [hG, h9]
    simp [rrLoop, bucketOf, popBucket]
  have hbA : (("A", [a1, a2, a3, a4, a5]) : String × List Rec3) ∈ groupByCategory recs := by
    rw [hG]; exact List.mem_cons_self _ _
  have hbB : (("B", [b1]) : String × List Rec3) ∈ groupByCategory recs := by
    rw [hG]; exact List.mem_cons_of_mem _ (List.mem_cons_self _ _)
  have hbC : (("C", [c1, c2, c3]) : String × List Rec3) ∈ groupByCategory recs := by
    rw [hG]
    exact List.mem_cons_of_mem _ (List.mem_cons_of_mem _ (List.mem_cons_self _ _))
  have hA1 : a1.1.category = "A" := groupBy_cat_inv hbA (by simp)
  have hA2 : a2.1.category = "A" := groupBy_cat_inv hbA (by simp)
  have hA3 : a3.1.category = "A" := groupBy_cat_inv hbA (by simp)
  have hB1 : b1.1.category = "B" := groupBy_cat_inv hbB (by simp)
  have hC1 : c1.1.category = "C" := groupBy_cat_inv hbC (by simp)
  have hC2 : c2.1.category = "C" := groupBy_cat_inv hbC (by simp)
  refine ⟨?_, ?_, ?_⟩
  · rw [hsel, h9]
    rfl
  · intro c hc
    rw [hsel]
    simp only [List.map_cons, List.map_nil, hA1, hA2, hA3, hB1, hC1, hC2]
    rcases List.mem_cons.mp hc with rfl | hc
    · simp
    rcases List.mem_cons.mp hc with rfl | hc
    · simp
    rcases List.mem_cons.mp hc with rfl | hc
    · simp
    simp at hc
  · rw [hsel]
    simp [hA1, hA2, hA3, hB1, hC1, hC2]

/-- Witness for the amended C8 at the concrete grouped recommendation list. -/
theorem diversity_selection_on_5_1_3_buckets_witness :
    (diversitySelect recsDiversity 6 1).map (fun r => r.1.category)
      = ["A", "B", "A", "C", "A", "C"] :=
  (diversity_selection_on_5_1_3_buckets recsDiversity 1
    [mkRec 1 "A", mkRec 2 "A", mkRec 3 "A", mkRec 4 "A", mkRec 5 "A"]
    [mkRec 6 "B"] [mkRec 7 "C", mkRec 8 "C", mkRec 9 "C"]
    (by decide) (by decide) (by decide) (by decide) (by decide)).2.2
